import Mathlib

/-!
Verification development for the SuperTuxKart GSE wrapper.

A shallow embedding of `main.go`, `gsemanager/gsemanager.go`, `api/grpcserver.go` and
`api/httpserver.go`.

* Log lines are `String`s (sequences of Unicode code points; Go strings that are not valid
  UTF-8 are outside the model).
* The four patterns of `handleLogLine` are values of a small regular-expression syntax
  `Regexp`, executed by a backtracking matcher with the leftmost-first, greedy priority of Go's
  `regexp` package.
* A run-time panic (nil dereference, index out of range) is an explicit result.
-/

namespace Wrapper

/-! ## Regular expressions (the fragment of Go `regexp` syntax used by `handleLogLine`) -/

/-- Syntax of the patterns: a literal run, `.`, a character range `[lo-hi]`, concatenation,
greedy `+`, greedy `?`, the capture group number 1, and `$`. -/
inductive Regexp where
  | lit (w : String)
  | anyNotNL
  | range (lo hi : Char)
  | cat (a b : Regexp)
  | plus (a : Regexp)
  | quest (a : Regexp)
  | cap (a : Regexp)
  | endText

/-- A matcher thread: the input still to be read and the text of capture group 1, if set. -/
structure Thread where
  rest : List Char
  cap : Option (List Char)

/-- Removes the literal `w` from the front of `s`, if it is there. -/
def dropLit : List Char → List Char → Option (List Char)
  | [], s => some s
  | _ :: _, [] => none
  | c :: w, x :: s => if x = c then dropLit w s else none

/-- Greedy iteration: every way of running `step` one or more times, more iterations first.
The fuel bounds the number of iterations by the length of the input. -/
def plusLoop (step : Thread → List Thread) : Nat → Thread → List Thread
  | 0, _ => []
  | n + 1, t =>
    (step t).flatMap fun u => plusLoop step n u ++ [u]

/-- All the ways the pattern matches at the front of the thread's input, in priority order:
the first element is the match Go's leftmost-first semantics selects at this position. -/
def Regexp.run : Regexp → Thread → List Thread
  | .lit w, t =>
    match dropLit w.data t.rest with
    | some s => [⟨s, t.cap⟩]
    | none => []
  | .anyNotNL, t =>
    match t.rest with
    | [] => []
    | x :: s => if x = '\n' then [] else [⟨s, t.cap⟩]
  | .range lo hi, t =>
    match t.rest with
    | [] => []
    | x :: s => if lo ≤ x ∧ x ≤ hi then [⟨s, t.cap⟩] else []
  | .cat a b, t => (a.run t).flatMap b.run
  | .plus a, t => plusLoop a.run (t.rest.length + 1) t
  | .quest a, t => a.run t ++ [t]
  | .cap a, t =>
    (a.run t).map fun u => ⟨u.rest, some (t.rest.take (t.rest.length - u.rest.length))⟩
  | .endText, t =>
    match t.rest with
    | [] => [t]
    | _ :: _ => []

/-- Whether the pattern has a capture group. -/
def Regexp.hasCap : Regexp → Bool
  | .cat a b => a.hasCap || b.hasCap
  | .plus a => a.hasCap
  | .quest a => a.hasCap
  | .cap _ => true
  | _ => false

/-- Unanchored search: the leftmost start position with a match, and the first match there.
Returns the input from the start position on and the final thread. -/
def Regexp.search (r : Regexp) : List Char → Option (List Char × Thread)
  | [] => ((r.run ⟨[], none⟩).head?).map fun u => ([], u)
  | c :: s =>
    match (r.run ⟨c :: s, none⟩).head? with
    | some u => some (c :: s, u)
    | none => Regexp.search r s

/-- Go `(*Regexp).MatchString`: whether the string contains any match of the pattern. -/
def Regexp.MatchString (r : Regexp) (s : String) : Bool :=
  (r.search s.data).isSome

/-- Go `(*Regexp).FindSubmatch`: the text of the leftmost match followed by the text of each
capture group (empty when the group took no part); the nil slice when there is no match. -/
def Regexp.FindSubmatch (r : Regexp) (s : String) : List String :=
  match r.search s.data with
  | none => []
  | some (start, u) =>
    String.mk (start.take (start.length - u.rest.length)) ::
      (if r.hasCap then [String.mk (u.cap.getD [])] else [])

/-! ## `main.go`: the log classifier -/

/-- Pattern `ServerLobby: New player (.+) with online id [0-9][0-9]?`. -/
def playerJoin : Regexp :=
  .cat (.lit "ServerLobby: New player ")
    (.cat (.cap (.plus .anyNotNL))
      (.cat (.lit " with online id ") (.cat (.range '0' '9') (.quest (.range '0' '9')))))

/-- Pattern `ServerLobby: (.+) disconnected$`. -/
def playerLeave : Regexp :=
  .cat (.lit "ServerLobby: ") (.cat (.cap (.plus .anyNotNL)) (.cat (.lit " disconnected") .endText))

/-- Pattern `STKHost.+There are now 0 peers\.$`. -/
def noMorePlayers : Regexp :=
  .cat (.lit "STKHost") (.cat (.plus .anyNotNL) (.cat (.lit "There are now 0 peers.") .endText))

/-- Pattern `Listening has been started`. -/
def serverStart : Regexp :=
  .lit "Listening has been started"

/-- What `handleLogLine` hands back: the messages it logged, the action and the player
(`none` is Go's nil pointer). -/
structure LogResult where
  logs : List String
  action : String
  player : Option String
  deriving DecidableEq, Repr

/-- Function `handleLogLine` of `main.go`. The outer `none` is the run-time panic of indexing
`matches[1]` out of range. -/
def handleLogLine (line : String) : Option LogResult :=
  if serverStart.MatchString line then
    some ⟨["server ready"], "READY", none⟩
  else if playerJoin.MatchString line then
    match (playerJoin.FindSubmatch line).get? 1 with
    | none => none
    | some player => some ⟨["Player " ++ player ++ " joined\n"], "PLAYERJOIN", some player⟩
  else if playerLeave.MatchString line then
    match (playerLeave.FindSubmatch line).get? 1 with
    | none => none
    | some player => some ⟨["Player " ++ player ++ " disconnected"], "PLAYERLEAVE", some player⟩
  else if noMorePlayers.MatchString line then
    some ⟨["server has no more players. shutting down"], "SHUTDOWN", none⟩
  else
    some ⟨[], "", none⟩

/-! ## `main.go`: the tail loop -/

/-- What the wrapper writes: a line echoed to standard output, or a message of the logger. -/
inductive Output where
  | stdout (s : String)
  | log (s : String)
  deriving DecidableEq, Repr

/-- How the process ends: `os.Exit` with a code (`log.Fatal` exits with 1), or a panic. -/
inductive Exit where
  | code (n : Nat)
  | panic
  deriving DecidableEq, Repr

/-- The body of the loop `for line := range t.Lines` of `main` on one line: what is written,
and how the process ends if it ends in this iteration. -/
def tailBody (enablePlayerTracking : Bool) (line : String) : List Output × Option Exit :=
  match handleLogLine line with
  | none => ([.stdout line], some .panic)
  | some r =>
    let out := Output.stdout line :: r.logs.map Output.log
    if r.action = "READY" then
      (out ++ [.log "log to mark server ready"], none)
    else if r.action = "PLAYERJOIN" then
      match r.player with
      | none => (out ++ [.log "could not determine player"], none)
      | some _ =>
        if enablePlayerTracking then (out ++ [.log "enablePlayerTracking"], none)
        else (out, none)
    else if r.action = "PLAYERLEAVE" then
      match r.player with
      | none => (out ++ [.log "could not determine player"], none)
      | some _ => (out, none)
    else if r.action = "SHUTDOWN" then
      (out, some (.code 0))
    else
      (out, none)

/-- Whether `handleLogLine` classifies the line as SHUTDOWN. -/
def classifiedShutdown (line : String) : Bool :=
  match handleLogLine line with
  | some r => decide (r.action = "SHUTDOWN")
  | none => false

/-! ## Machine integers and `strconv.Atoi` -/

/-- Go conversion `int32(n)`: the value modulo `2^32`, read as a signed 32-bit number. -/
def int32 (n : Int) : Int :=
  (n + 2 ^ 31) % 2 ^ 32 - 2 ^ 31

/-- The two errors of the number parsers of Go `strconv`: `invalid` is `ErrSyntax`,
`outOfRange` is `ErrRange`. -/
inductive NumError where
  | invalid
  | outOfRange
  deriving DecidableEq, Repr

/-- The loop of Go `strconv.ParseUint(s, 10, 64)` over the characters still to be read, `n`
being the number read so far. A character that is not a digit ends it with 0 and a syntax
error; a digit that makes the number exceed `2^64 - 1` ends it at once with `2^64 - 1` and a
range error, whatever follows. -/
def parseUintLoop : List Char → Nat → Nat × Option NumError
  | [], n => (n, none)
  | c :: cs, n =>
    if '0' ≤ c ∧ c ≤ '9' then
      if n ≥ (2 ^ 64 - 1) / 10 + 1 then (2 ^ 64 - 1, some .outOfRange)
      else if n * 10 + (c.toNat - '0'.toNat) > 2 ^ 64 - 1 then (2 ^ 64 - 1, some .outOfRange)
      else parseUintLoop cs (n * 10 + (c.toNat - '0'.toNat))
    else (0, some .invalid)

/-- Go `strconv.ParseUint(s, 10, 64)`. -/
def ParseUint (s : List Char) : Nat × Option NumError :=
  if s.isEmpty then (0, some .invalid) else parseUintLoop s 0

/-- Go `strconv.ParseInt(s, 10, 0)` on a 64-bit platform: a sign is taken off, the rest is
read by `ParseUint`; a syntax error gives 0, a number out of the `int64` range gives the
nearest `int64` with a range error. -/
def ParseInt (s : List Char) : Int × Option NumError :=
  match s with
  | [] => (0, some .invalid)
  | c :: cs =>
    let neg := decide (c = '-')
    match ParseUint (if c = '+' ∨ c = '-' then cs else c :: cs) with
    | (_, some .invalid) => (0, some .invalid)
    | (un, _) =>
      if !neg && decide (un ≥ 2 ^ 63) then (2 ^ 63 - 1, some .outOfRange)
      else if neg && decide (un > 2 ^ 63) then (-(2 ^ 63), some .outOfRange)
      else (if neg then -(un : Int) else (un : Int), none)

/-- The digit loop of the fast path of `strconv.Atoi`: the number read, or `none` at a
character that is not a digit. -/
def atoiFast : List Char → Nat → Option Nat
  | [], n => some n
  | c :: cs, n =>
    if '0' ≤ c ∧ c ≤ '9' then atoiFast cs (n * 10 + (c.toNat - '0'.toNat)) else none

/-- Go `strconv.Atoi` on a 64-bit platform: the value and whether an error is returned.
Strings of 1 to 18 bytes take the fast path (a sign, then digits); the others go through
`ParseInt`. A syntax error comes with the value 0, a range error with the nearest `int64`
(also when a character that is not a digit follows the overflow). -/
def Atoi (s : String) : Int × Bool :=
  if 0 < s.utf8ByteSize ∧ s.utf8ByteSize < 19 then
    match s.data with
    | [] => (0, true)
    | c :: cs =>
      if (if c = '-' ∨ c = '+' then cs else c :: cs).isEmpty then (0, true)
      else
        match atoiFast (if c = '-' ∨ c = '+' then cs else c :: cs) 0 with
        | none => (0, true)
        | some n => (if c = '-' then -(n : Int) else (n : Int), false)
  else
    ((ParseInt s.data).1, (ParseInt s.data).2.isSome)

/-! ## `gsemanager/gsemanager.go` -/

/-- Type `grpcsdk.GameServerSession`, with the fields the sources read. -/
structure GameServerSession where
  GameServerSessionId : String
  MaxPlayers : Int
  deriving DecidableEq, Repr

/-- The requests of the outbound client `grpcsdk.GseGrpcSdkServiceClient`. -/
inductive AgentCall where
  | ProcessReady (logPathsToUpload : List String) (clientPort grpcPort : Int)
  | ActivateGameServerSession (gameServerSessionId : String) (maxPlayers : Int)
  | AcceptPlayerSession (gameServerSessionId playerSessionId : String)
  | RemovePlayerSession (gameServerSessionId playerSessionId : String)
  | TerminateGameServerSession (gameServerSessionId : String)
  | ProcessEnding
  | DescribePlayerSessions (gameServerSessionId playerId playerSessionId
      playerSessionStatusFilter nextToken : String) (limit : Int)
  | UpdatePlayerSessionCreationPolicy (gameServerSessionId newPolicy : String)
  | ReportCustomData (currentCustomCount maxCustomCount : Int)
  deriving DecidableEq, Repr

/-- An outbound call as the agent sees it: the request and the `pid` metadata of `getContext`
(the random `requestId` is left out). -/
structure Outbound where
  pid : String
  call : AgentCall
  deriving DecidableEq, Repr

/-- An error returned by an outbound call: one that carries a gRPC status (`status.FromError`
answers `ok`), or any other error with its text. -/
inductive RpcError where
  | status (code : Nat) (message : String)
  | other (text : String)
  deriving DecidableEq, Repr

/-- The response message of an outbound call, as the agent sent it. -/
abbrev Payload := String

/-- The agent: what it answers to a call, given the calls it has received before. -/
abbrev Agent := List Outbound → Outbound → Except RpcError Payload

/-- Struct `gsemanager`; `gameServerSession = none` is the nil pointer. The field `rpcClient`
is represented by the agent and the list of calls sent. -/
structure gsemanager where
  pid : String
  gameServerSession : Option GameServerSession
  terminationTime : Int
  deriving DecidableEq, Repr

/-- Struct `rpcService` of `api/grpcserver.go`. -/
structure rpcService where
  healthStatus : Bool
  grpcPort : Int
  deriving DecidableEq, Repr

/-- The state of the process: the two package-level singletons (`none` before their first
construction), the process id, and the calls sent to the agent so far, oldest first. -/
structure World where
  osPid : String
  gseManagerIns : Option gsemanager
  rpcServerIns : Option rpcService
  sent : List Outbound
  deriving DecidableEq, Repr

/-- How a handler or method ends: it returns a value, or it panics; both in a final state. -/
inductive Outcome (α : Type) where
  | ret (a : α) (w : World)
  | panicked (w : World)
  deriving DecidableEq, Repr

/-- The state in which an outcome ends. -/
def Outcome.world {α : Type} : Outcome α → World
  | .ret _ w => w
  | .panicked w => w

/-- The value returned, if the handler returned. -/
def Outcome.value? {α : Type} : Outcome α → Option α
  | .ret a _ => some a
  | .panicked _ => none

/-- Function `GetGseManager`: the singleton, constructed on first use with the process id, no
session and a zero termination time. -/
def GetGseManager (w : World) : gsemanager × World :=
  match w.gseManagerIns with
  | some g => (g, w)
  | none =>
    let g : gsemanager := ⟨w.osPid, none, 0⟩
    (g, { w with gseManagerIns := some g })

/-- The manager as `GetGseManager` would return it in this state. -/
def World.manager (w : World) : gsemanager :=
  (GetGseManager w).1

/-- Stores the receiver back into the singleton. -/
def World.setManager (w : World) (g : gsemanager) : World :=
  { w with gseManagerIns := some g }

/-- One call on `g.rpcClient` with the context of `getContext`: the agent's answer and the
extended list of calls sent. -/
def gsemanager.invoke (g : gsemanager) (agent : Agent) (sent : List Outbound) (c : AgentCall) :
    Except RpcError Payload × List Outbound :=
  (agent sent ⟨g.pid, c⟩, sent ++ [⟨g.pid, c⟩])

/-- Method `SetGameServerSession`. -/
def gsemanager.SetGameServerSession (g : gsemanager) (s : Option GameServerSession) :
    gsemanager :=
  { g with gameServerSession := s }

/-- Method `SetTerminationTime`. -/
def gsemanager.SetTerminationTime (g : gsemanager) (terminationTime : Int) : gsemanager :=
  { g with terminationTime := terminationTime }

/-- Method `ProcessReady`: the error, if any. -/
def gsemanager.ProcessReady (g : gsemanager) (agent : Agent) (sent : List Outbound)
    (logPath : List String) (clientPort grpcPort : Int) : Option RpcError × List Outbound :=
  match g.invoke agent sent (.ProcessReady logPath clientPort grpcPort) with
  | (.error e, sent1) => (some e, sent1)
  | (.ok _, sent1) => (none, sent1)

/-- Method `ActivateGameServerSession`: the error, if any. -/
def gsemanager.ActivateGameServerSession (g : gsemanager) (agent : Agent)
    (sent : List Outbound) (gameServerSessionId : String) (maxPlayers : Int) :
    Option RpcError × List Outbound :=
  match g.invoke agent sent (.ActivateGameServerSession gameServerSessionId maxPlayers) with
  | (.error e, sent1) => (some e, sent1)
  | (.ok _, sent1) => (none, sent1)

/-- Method `AcceptPlayerSession`; `none` is the nil-pointer panic of reading
`g.gameServerSession.GameServerSessionId`, which happens before anything is sent. -/
def gsemanager.AcceptPlayerSession (g : gsemanager) (agent : Agent) (sent : List Outbound)
    (playerSessionId : String) : Option (Except RpcError Payload × List Outbound) :=
  match g.gameServerSession with
  | none => none
  | some s => some (g.invoke agent sent (.AcceptPlayerSession s.GameServerSessionId playerSessionId))

/-- Method `RemovePlayerSession`; `none` is the nil-pointer panic. -/
def gsemanager.RemovePlayerSession (g : gsemanager) (agent : Agent) (sent : List Outbound)
    (playerSessionId : String) : Option (Except RpcError Payload × List Outbound) :=
  match g.gameServerSession with
  | none => none
  | some s => some (g.invoke agent sent (.RemovePlayerSession s.GameServerSessionId playerSessionId))

/-- Method `TerminateGameServerSession`; `none` is the nil-pointer panic. -/
def gsemanager.TerminateGameServerSession (g : gsemanager) (agent : Agent)
    (sent : List Outbound) : Option (Except RpcError Payload × List Outbound) :=
  match g.gameServerSession with
  | none => none
  | some s => some (g.invoke agent sent (.TerminateGameServerSession s.GameServerSessionId))

/-- Method `ProcessEnding`. -/
def gsemanager.ProcessEnding (g : gsemanager) (agent : Agent) (sent : List Outbound) :
    Except RpcError Payload × List Outbound :=
  g.invoke agent sent .ProcessEnding

/-- Method `DescribePlayerSessions`. -/
def gsemanager.DescribePlayerSessions (g : gsemanager) (agent : Agent) (sent : List Outbound)
    (gameServerSessionId playerId playerSessionId playerSessionStatusFilter nextToken : String)
    (limit : Int) : Except RpcError Payload × List Outbound :=
  g.invoke agent sent (.DescribePlayerSessions gameServerSessionId playerId playerSessionId
    playerSessionStatusFilter nextToken limit)

/-- Method `UpdatePlayerSessionCreationPolicy`; `none` is the nil-pointer panic. -/
def gsemanager.UpdatePlayerSessionCreationPolicy (g : gsemanager) (agent : Agent)
    (sent : List Outbound) (newPolicy : String) :
    Option (Except RpcError Payload × List Outbound) :=
  match g.gameServerSession with
  | none => none
  | some s =>
    some (g.invoke agent sent (.UpdatePlayerSessionCreationPolicy s.GameServerSessionId newPolicy))

/-- Method `ReportCustomData`. -/
def gsemanager.ReportCustomData (g : gsemanager) (agent : Agent) (sent : List Outbound)
    (currentCustomCount maxCustomCount : Int) : Except RpcError Payload × List Outbound :=
  g.invoke agent sent (.ReportCustomData currentCustomCount maxCustomCount)

/-! ## `api/grpcserver.go` -/

/-- Message `grpcsdk.HealthCheckResponse`. -/
structure HealthCheckResponse where
  HealthStatus : Bool
  deriving DecidableEq, Repr

/-- Message `grpcsdk.StartGameServerSessionRequest`; the session is a pointer and may be
nil. -/
structure StartGameServerSessionRequest where
  GameServerSession : Option GameServerSession
  deriving DecidableEq, Repr

/-- Message `grpcsdk.ProcessTerminateRequest`. -/
structure ProcessTerminateRequest where
  TerminationTime : Int
  deriving DecidableEq, Repr

/-- Message `grpcsdk.ProcessResponse`, which the handlers return freshly allocated. -/
structure ProcessResponse where
  deriving DecidableEq, Repr

/-- Function `GetRpcService`: the singleton, constructed healthy on first use. -/
def GetRpcService (w : World) : rpcService × World :=
  match w.rpcServerIns with
  | some s => (s, w)
  | none =>
    let s : rpcService := ⟨true, 0⟩
    (s, { w with rpcServerIns := some s })

/-- Method `rpcService.SetHealthStatus`, on the singleton; a nil receiver panics. -/
def rpcService.SetHealthStatus (w : World) (healthStatus : Bool) : Outcome Unit :=
  match w.rpcServerIns with
  | none => .panicked w
  | some s => .ret () { w with rpcServerIns := some { s with healthStatus := healthStatus } }

/-- Handler `OnHealthCheck`, on the singleton: the response and a nil error. -/
def rpcService.OnHealthCheck (w : World) : Outcome (HealthCheckResponse × Option RpcError) :=
  match w.rpcServerIns with
  | none => .panicked w
  | some s => .ret (⟨s.healthStatus⟩, none) w

/-- Handler `OnStartGameServerSession`. The session of the request is stored first; reading
the fields of a nil session panics after that. The result of the call is dropped. -/
def rpcService.OnStartGameServerSession (agent : Agent) (w : World)
    (req : StartGameServerSessionRequest) : Outcome (ProcessResponse × Option RpcError) :=
  let (g, w1) := GetGseManager w
  let g1 := g.SetGameServerSession req.GameServerSession
  let w2 := w1.setManager g1
  match req.GameServerSession with
  | none => .panicked w2
  | some d =>
    let (_, sent) := g1.ActivateGameServerSession agent w2.sent d.GameServerSessionId d.MaxPlayers
    .ret (⟨⟩, none) { w2 with sent := sent }

/-- Handler `OnProcessTerminate`. The results of the two calls are dropped. -/
def rpcService.OnProcessTerminate (agent : Agent) (w : World) (req : ProcessTerminateRequest) :
    Outcome (ProcessResponse × Option RpcError) :=
  let (g, w1) := GetGseManager w
  let g1 := g.SetTerminationTime req.TerminationTime
  let w2 := w1.setManager g1
  match g1.TerminateGameServerSession agent w2.sent with
  | none => .panicked w2
  | some (_, sent1) =>
    let (_, sent2) := g1.ProcessEnding agent sent1
    .ret (⟨⟩, none) { w2 with sent := sent2 }

/-! ## `api/httpserver.go` -/

/-- Struct `response`, the envelope every debug endpoint writes; `Result = none` is nil. -/
structure response where
  Code : Int
  Message : String
  Result : Option Payload
  deriving DecidableEq, Repr

/-- The parsed query of a request, `req.URL.Query()`, as the key-value pairs in order. -/
abbrev Query := List (String × String)

/-- Go `url.Values.Get`: the first value of the key, or the empty string. -/
def Query.Get (q : Query) (key : String) : String :=
  match q.find? (fun p => p.1 = key) with
  | some p => p.2
  | none => ""

/-- The envelope the handlers write for a failed call: code 500 and the error's text, replaced
by the status's code (converted to `int32`) and message when the error carries a status. -/
def errResponse (e : RpcError) : response :=
  match e with
  | .status code message => ⟨int32 code, message, none⟩
  | .other text => ⟨500, text, none⟩

/-- Handler `Login`. -/
def httpProcess.Login (agent : Agent) (w : World) (q : Query) : Outcome response :=
  let playSessionId := q.Get "playerSessionId"
  if playSessionId = "" then
    .ret ⟨400, "playerSessionId cant be empty", none⟩ w
  else
    let (g, w1) := GetGseManager w
    match g.AcceptPlayerSession agent w1.sent playSessionId with
    | none => .panicked w1
    | some (.error e, sent) => .ret (errResponse e) { w1 with sent := sent }
    | some (.ok _, sent) => .ret ⟨0, "success", none⟩ { w1 with sent := sent }

/-- Handler `LoginOut`. -/
def httpProcess.LoginOut (agent : Agent) (w : World) (q : Query) : Outcome response :=
  let playSessionId := q.Get "playerSessionId"
  if playSessionId = "" then
    .ret ⟨400, "playerSessionId cant be empty", none⟩ w
  else
    let (g, w1) := GetGseManager w
    match g.RemovePlayerSession agent w1.sent playSessionId with
    | none => .panicked w1
    | some (.error e, sent) => .ret (errResponse e) { w1 with sent := sent }
    | some (.ok _, sent) => .ret ⟨0, "success", none⟩ { w1 with sent := sent }

/-- Handler `TerminateSession`. -/
def httpProcess.TerminateSession (agent : Agent) (w : World) (_q : Query) : Outcome response :=
  let (g, w1) := GetGseManager w
  match g.TerminateGameServerSession agent w1.sent with
  | none => .panicked w1
  | some (.error e, sent) => .ret (errResponse e) { w1 with sent := sent }
  | some (.ok _, sent) => .ret ⟨0, "success", none⟩ { w1 with sent := sent }

/-- Handler `EndProcess`. -/
def httpProcess.EndProcess (agent : Agent) (w : World) (_q : Query) : Outcome response :=
  let (g, w1) := GetGseManager w
  match g.ProcessEnding agent w1.sent with
  | (.error e, sent) => .ret (errResponse e) { w1 with sent := sent }
  | (.ok _, sent) => .ret ⟨0, "success", none⟩ { w1 with sent := sent }

/-- Handler `DescribePlayerSessions`; the error of parsing `limit` is dropped. -/
def httpProcess.DescribePlayerSessions (agent : Agent) (w : World) (q : Query) :
    Outcome response :=
  let gameServerSessionId := q.Get "gameServerSessionId"
  let playerId := q.Get "playerId"
  let playerSessionId := q.Get "playerSessionId"
  let playerSessionStatusFilter := q.Get "playerSessionStatusFilter"
  let nextToken := q.Get "nextToken"
  let limit := (Atoi (q.Get "limit")).1
  let (g, w1) := GetGseManager w
  match g.DescribePlayerSessions agent w1.sent gameServerSessionId playerId playerSessionId
      playerSessionStatusFilter nextToken (int32 limit) with
  | (.error e, sent) => .ret (errResponse e) { w1 with sent := sent }
  | (.ok resp, sent) => .ret ⟨0, "success", some resp⟩ { w1 with sent := sent }

/-- Handler `UpdatePlayerSessionCreationPolicy`. -/
def httpProcess.UpdatePlayerSessionCreationPolicy (agent : Agent) (w : World) (q : Query) :
    Outcome response :=
  let newPolicy := q.Get "newPlayerSessionCreationPolicy"
  let (g, w1) := GetGseManager w
  match g.UpdatePlayerSessionCreationPolicy agent w1.sent newPolicy with
  | none => .panicked w1
  | some (.error e, sent) => .ret (errResponse e) { w1 with sent := sent }
  | some (.ok _, sent) => .ret ⟨0, "success", none⟩ { w1 with sent := sent }

/-- Handler `ReportCustomData`. -/
def httpProcess.ReportCustomData (agent : Agent) (w : World) (q : Query) : Outcome response :=
  let currentCustomCount := Atoi (q.Get "currentCustomCount")
  let maxCustomCount := Atoi (q.Get "maxCustomCount")
  if currentCustomCount.2 || maxCustomCount.2 then
    .ret ⟨400, "currentCustomCount 或者 maxCustomCount必须是整数", none⟩ w
  else
    let (g, w1) := GetGseManager w
    match g.ReportCustomData agent w1.sent (int32 currentCustomCount.1)
        (int32 maxCustomCount.1) with
    | (.error e, sent) => .ret (errResponse e) { w1 with sent := sent }
    | (.ok _, sent) => .ret ⟨0, "success", none⟩ { w1 with sent := sent }

/-- Handler `SetHealthStatus`: writes the flag of the package variable `rpcServerIns`; the
error of parsing `healthStatus` is dropped. -/
def httpProcess.SetHealthStatus (w : World) (q : Query) : Outcome response :=
  let status := (Atoi (q.Get "healthStatus")).1
  match w.rpcServerIns with
  | none => .panicked w
  | some s =>
    .ret ⟨0, "success", none⟩
      { w with rpcServerIns := some { s with healthStatus := decide (status ≠ 0) } }

/-- Handler `HelloWorld`. -/
def httpProcess.HelloWorld (w : World) (_q : Query) : Outcome response :=
  .ret ⟨0, "hello,world", none⟩ w

/-- The handlers of the debug interface. -/
inductive DebugHandler where
  | Login | LoginOut | TerminateSession | EndProcess | DescribePlayerSessions
  | UpdatePlayerSessionCreationPolicy | ReportCustomData | SetHealthStatus | HelloWorld
  deriving DecidableEq, Repr

/-- Runs a handler on a request. -/
def DebugHandler.serve (h : DebugHandler) (agent : Agent) (w : World) (q : Query) :
    Outcome response :=
  match h with
  | .Login => httpProcess.Login agent w q
  | .LoginOut => httpProcess.LoginOut agent w q
  | .TerminateSession => httpProcess.TerminateSession agent w q
  | .EndProcess => httpProcess.EndProcess agent w q
  | .DescribePlayerSessions => httpProcess.DescribePlayerSessions agent w q
  | .UpdatePlayerSessionCreationPolicy => httpProcess.UpdatePlayerSessionCreationPolicy agent w q
  | .ReportCustomData => httpProcess.ReportCustomData agent w q
  | .SetHealthStatus => httpProcess.SetHealthStatus w q
  | .HelloWorld => httpProcess.HelloWorld w q

/-- The handlers that call the agent. -/
def DebugHandler.callsAgent : DebugHandler → Bool
  | .SetHealthStatus => false
  | .HelloWorld => false
  | _ => true

/-- The local validation of a handler: the request is forwarded when it holds. -/
def DebugHandler.valid (h : DebugHandler) (q : Query) : Bool :=
  match h with
  | .Login => q.Get "playerSessionId" ≠ ""
  | .LoginOut => q.Get "playerSessionId" ≠ ""
  | .ReportCustomData =>
    !(Atoi (q.Get "currentCustomCount")).2 && !(Atoi (q.Get "maxCustomCount")).2
  | _ => true

/-- The handlers that read the id of the current session for their request. -/
def DebugHandler.needsSession : DebugHandler → Bool
  | .Login => true
  | .LoginOut => true
  | .TerminateSession => true
  | .UpdatePlayerSessionCreationPolicy => true
  | _ => false

/-- The request of the outbound interface that a debug endpoint mirrors, for a query and the
manager's current session: the spec's `AcceptPlayerSession(sessionId, playerSessionId)` for
login, and so on. It is `none` for the endpoints that mirror no request, and for those that
need a session when there is none. -/
def DebugHandler.request? (h : DebugHandler) (g : gsemanager) (q : Query) : Option AgentCall :=
  match h with
  | .Login =>
    g.gameServerSession.map fun d =>
      .AcceptPlayerSession d.GameServerSessionId (q.Get "playerSessionId")
  | .LoginOut =>
    g.gameServerSession.map fun d =>
      .RemovePlayerSession d.GameServerSessionId (q.Get "playerSessionId")
  | .TerminateSession =>
    g.gameServerSession.map fun d => .TerminateGameServerSession d.GameServerSessionId
  | .EndProcess => some .ProcessEnding
  | .DescribePlayerSessions =>
    some (.DescribePlayerSessions (q.Get "gameServerSessionId") (q.Get "playerId")
      (q.Get "playerSessionId") (q.Get "playerSessionStatusFilter") (q.Get "nextToken")
      (int32 (Atoi (q.Get "limit")).1))
  | .UpdatePlayerSessionCreationPolicy =>
    g.gameServerSession.map fun d =>
      .UpdatePlayerSessionCreationPolicy d.GameServerSessionId
        (q.Get "newPlayerSessionCreationPolicy")
  | .ReportCustomData =>
    some (.ReportCustomData (int32 (Atoi (q.Get "currentCustomCount")).1)
      (int32 (Atoi (q.Get "maxCustomCount")).1))
  | .SetHealthStatus => none
  | .HelloWorld => none

/-! ## The process as a whole -/

/-- The result of the tail loop: what was written, how the process ended, and the state of
the process at that point. -/
structure TailResult where
  out : List Output
  exit : Exit
  world : World
  deriving DecidableEq, Repr

/-- The loop `for line := range t.Lines` of `main` followed by `log.Fatal("tail ended")`, on
the lines the tail delivers before its channel is closed, in the process state `w`. -/
def tailLoop (enablePlayerTracking : Bool) (w : World) : List String → TailResult
  | [] => ⟨[.log "tail ended"], .code 1, w⟩
  | line :: rest =>
    match tailBody enablePlayerTracking line with
    | (out, some e) => ⟨out, e, w⟩
    | (out, none) =>
      let r := tailLoop enablePlayerTracking w rest
      ⟨out ++ r.out, r.exit, r.world⟩

/-- The operations that act on the process state: the three callbacks of the agent, the
method `rpcService.SetHealthStatus`, a request to the debug interface, and a log line read
by the tail loop. -/
inductive Op where
  | OnHealthCheck
  | OnStartGameServerSession (req : StartGameServerSessionRequest)
  | OnProcessTerminate (req : ProcessTerminateRequest)
  | SetHealthStatus (healthStatus : Bool)
  | debug (h : DebugHandler) (q : Query)
  | logLine (line : String)
  deriving DecidableEq, Repr

/-- The set-health-status commands. -/
def Op.isSetHealth : Op → Bool
  | .SetHealthStatus _ => true
  | .debug .SetHealthStatus _ => true
  | _ => false

/-- One operation: the state after it and whether the process is still running. A panic in a
callback or in the tail loop ends the process; a panic in a debug handler is recovered by the
HTTP server, and the process goes on. -/
def Op.step (agent : Agent) (enablePlayerTracking : Bool) (w : World) : Op → World × Bool
  | .OnHealthCheck =>
    ((rpcService.OnHealthCheck w).world, (rpcService.OnHealthCheck w).value?.isSome)
  | .OnStartGameServerSession req =>
    ((rpcService.OnStartGameServerSession agent w req).world,
      (rpcService.OnStartGameServerSession agent w req).value?.isSome)
  | .OnProcessTerminate req =>
    ((rpcService.OnProcessTerminate agent w req).world,
      (rpcService.OnProcessTerminate agent w req).value?.isSome)
  | .SetHealthStatus b =>
    ((rpcService.SetHealthStatus w b).world, (rpcService.SetHealthStatus w b).value?.isSome)
  | .debug h q => ((h.serve agent w q).world, true)
  | .logLine line => (w, (tailBody enablePlayerTracking line).2.isNone)

/-- A sequence of operations, up to the end of the process. -/
def runOps (agent : Agent) (enablePlayerTracking : Bool) : World → List Op → World
  | w, [] => w
  | w, op :: ops =>
    match op.step agent enablePlayerTracking w with
    | (w1, true) => runOps agent enablePlayerTracking w1 ops
    | (w1, false) => w1

/-- The flag `OnHealthCheck` reports in a state, if it returns. -/
def reportedHealth (w : World) : Option Bool :=
  (rpcService.OnHealthCheck w).value?.map fun r => r.1.HealthStatus

/-- The state in which `OnProcessTerminate` returns when a session `d` exists: the deadline
of the request is stored and two calls have been sent, TerminateGameServerSession for the
session and then ProcessEnding. -/
def terminated (w : World) (d : GameServerSession) (req : ProcessTerminateRequest) : World :=
  { w with
    gseManagerIns := some { w.manager with terminationTime := req.TerminationTime }
    sent := w.sent ++ [⟨w.manager.pid, .TerminateGameServerSession d.GameServerSessionId⟩,
      ⟨w.manager.pid, .ProcessEnding⟩] }

/-- The state in which `OnStartGameServerSession` returns for a request with the session `d`:
the session is stored and one call ActivateGameServerSession has been sent. -/
def started (w : World) (d : GameServerSession) : World :=
  { w with
    gseManagerIns := some { w.manager with gameServerSession := some d }
    sent := w.sent ++
      [⟨w.manager.pid, .ActivateGameServerSession d.GameServerSessionId d.MaxPlayers⟩] }

/-! ## `main.go`: the startup sequence -/

/-- What `main` does that can be observed from outside, in the order it happens: the callback
listener is bound (`net.Listen` returned without error), the callback server starts serving
(`go grpcServer.Serve(listen)`), the game server is started (`cmd.Start` returned without
error), a call is sent to the agent, a message is written. -/
inductive Event where
  | grpcListen (addr : String)
  | grpcServe
  | cmdStart (command : String) (args : List String)
  | agentCall (o : Outbound)
  | written (o : Output)
  deriving DecidableEq, Repr

/-- The results of the system and library calls of `main`: `net.Listen` (the listener's
address or the error), `rand.Intn(10000)`, the flags `-i` and `-player-tracking`, the error
of `cmd.Start` if any, `os.UserHomeDir`, and for the log file under a home directory the
result of each call of `tail.TailFile` (the lines its channel delivers, or the error). -/
structure Env where
  listen : Except String String
  randIntn : Nat
  input : String
  enablePlayerTracking : Bool
  cmdStart : Option String
  userHomeDir : Except String String
  tailFile : String → Nat → Except String (List String)

/-- The run of `main`: its events in order, how the process ends, and the final state. -/
structure MainResult where
  trace : List Event
  exit : Exit
  world : World
  deriving DecidableEq, Repr

/-- The calls to the agent among the events, in order. -/
def agentCalls (tr : List Event) : List Outbound :=
  tr.filterMap fun e =>
    match e with
    | .agentCall o => some o
    | _ => none

/-- Modelled from the spec: package `logger` is not among the sources. Its `Fatal` is taken
to write the message and to end the process with exit code 1, as `log.Fatal` does: the spec
calls the failures that are reported through it fatal. -/
def loggerFatal (msg : String) (tr : List Event) (w : World) : MainResult :=
  ⟨tr ++ [.written (.log msg)], .code 1, w⟩

/-- The port that `StartGrpcServer` reads from the listener's address:
`strings.Split(addr, ":")[1]` given to `strconv.Atoi`; `none` is the index out of range. -/
def listenerPort (addr : String) : Option (Int × Bool) :=
  (((addr.data.splitOn ':').map String.mk).get? 1).map Atoi

/-- Function `startGrpcServer` of `main.go`, with the methods `StartGrpcServer` and
`GetGrpcPort` of `rpcService`: the events, the state and the port of the listener, or the
run that ends here. The port is stored in the service before its error is looked at. -/
def startGrpcServer (listen : Except String String) (w : World) :
    Except MainResult (List Event × World × Int) :=
  let (s, w1) := GetRpcService w
  match listen with
  | .error _ => .error (loggerFatal "grpc fail to listen" [] w1)
  | .ok addr =>
    match listenerPort addr with
    | none => .error ⟨[.grpcListen addr], .panic, w1⟩
    | some (port, err) =>
      let w2 : World := { w1 with rpcServerIns := some { s with grpcPort := port } }
      if err then .error (loggerFatal "grpc fail to get port" [.grpcListen addr] w2)
      else .ok ([.grpcListen addr, .grpcServe], w2, port)

/-- The loop of `main` that opens the log file: up to `n` calls of `tail.TailFile`, the first
of them being call number `i`; an error is logged and the next call follows. The result is
the lines of the tail that was opened, or `none` when every call failed (`t` is nil then). -/
def openTail (tailFile : Nat → Except String (List String)) :
    Nat → Nat → List Event × Option (List String)
  | 0, _ => ([], none)
  | n + 1, i =>
    match tailFile i with
    | .ok lines => ([], some lines)
    | .error err =>
      ((Event.written (.log err)) :: (openTail tailFile n (i + 1)).1,
        (openTail tailFile n (i + 1)).2)

/-- The part of `main` after the readiness report: the home directory, the opening of the
log file and the tail loop. Reading `t.Lines` of a nil tail panics. -/
def afterReady (env : Env) (w : World) : MainResult :=
  match env.userHomeDir with
  | .error err =>
    ⟨[.written (.log "Starting health checking"),
      .written (.log ("could not get home dir: " ++ err))], .code 1, w⟩
  | .ok home =>
    match openTail (env.tailFile home) 10 0 with
    | (tr, none) => ⟨.written (.log "Starting health checking") :: tr, .panic, w⟩
    | (tr, some lines) =>
      ⟨.written (.log "Starting health checking") :: tr
          ++ (tailLoop env.enablePlayerTracking w lines).out.map Event.written,
        (tailLoop env.enablePlayerTracking w lines).exit,
        (tailLoop env.enablePlayerTracking w lines).world⟩

/-- The readiness report of `main`: `GetGseManager` and `ProcessReady` with the log path, the
client port and the port of the callback listener; a failed report is fatal. -/
def reportReady (agent : Agent) (env : Env) (clientPort grpcPort : Int) (w : World) :
    MainResult :=
  let (g, w1) := GetGseManager w
  match g.ProcessReady agent w1.sent ["/local/game/log/log.txt"] (int32 clientPort)
      (int32 grpcPort) with
  | (some _, sent) =>
    loggerFatal "processready fail"
      [.written (.log "Connecting to Gse with the SDK"),
        .agentCall ⟨g.pid, .ProcessReady ["/local/game/log/log.txt"] (int32 clientPort)
          (int32 grpcPort)⟩]
      { w1 with sent := sent }
  | (none, sent) =>
    ⟨.written (.log "Connecting to Gse with the SDK") ::
        .agentCall ⟨g.pid, .ProcessReady ["/local/game/log/log.txt"] (int32 clientPort)
          (int32 grpcPort)⟩ ::
        (afterReady env { w1 with sent := sent }).trace,
      (afterReady env { w1 with sent := sent }).exit,
      (afterReady env { w1 with sent := sent }).world⟩

/-- Function `main` of `main.go`, for an agent, an environment and an initial state. -/
def main (agent : Agent) (env : Env) (w : World) : MainResult :=
  match startGrpcServer env.listen w with
  | .error r => r
  | .ok (tr1, w1, grpcPort) =>
    let clientPort : Nat := 20000 + env.randIntn
    let cmdString :=
      (env.input.data.splitOn ' ').map String.mk ++ ["--port=" ++ toString clientPort]
    let tr2 := tr1 ++ [.written (.log "Starting wrapper for SuperTuxKart")]
    match cmdString with
    | [] => ⟨tr2, .panic, w1⟩
    | command :: args =>
      let tr3 := tr2 ++ [.written (.log ("Command being run for SuperTuxKart server: ["
        ++ " ".intercalate cmdString ++ "] \n"))]
      match env.cmdStart with
      | some err => ⟨tr3 ++ [.written (.log ("error starting cmd: " ++ err))], .code 1, w1⟩
      | none =>
        let r := reportReady agent env clientPort grpcPort w1
        ⟨tr3 ++ .cmdStart command args :: r.trace, r.exit, r.world⟩

/-- A string that is an integer in decimal: a non-empty run of digits, with an optional
sign in front. -/
def IsInteger (s : String) : Prop :=
  ∃ ds : List Char, ds ≠ [] ∧ (∀ c ∈ ds, '0' ≤ c ∧ c ≤ '9') ∧
    (s.data = ds ∨ s.data = '+' :: ds ∨ s.data = '-' :: ds)

/-- A request parameter that is absent from the query. -/
def Query.Absent (q : Query) (key : String) : Prop :=
  ∀ p ∈ q, p.1 ≠ key

/-! ## Declarative meaning of the patterns -/

/-- Declarative reading of a pattern as a relation between threads: `r.Den t u` says that the
pattern can read a prefix of the input of `t`, leaving `u`. -/
def Regexp.Den : Regexp → Thread → Thread → Prop
  | .lit w, t, u => t.rest = w.data ++ u.rest ∧ u.cap = t.cap
  | .anyNotNL, t, u => ∃ c, c ≠ '\n' ∧ t.rest = c :: u.rest ∧ u.cap = t.cap
  | .range lo hi, t, u => ∃ c, lo ≤ c ∧ c ≤ hi ∧ t.rest = c :: u.rest ∧ u.cap = t.cap
  | .cat a b, t, u => ∃ m, a.Den t m ∧ b.Den m u
  | .plus a, t, u => Relation.TransGen a.Den t u
  | .quest a, t, u => a.Den t u ∨ u = t
  | .cap a, t, u => ∃ m w, a.Den t m ∧ t.rest = w ++ m.rest ∧ u = ⟨m.rest, some w⟩
  | .endText, t, u => t.rest = [] ∧ u = t

/-- A line matches a pattern when the pattern reads some substring of it. -/
def Regexp.Matches (r : Regexp) (s : List Char) : Prop :=
  ∃ pre start u, s = pre ++ start ∧ r.Den ⟨start, none⟩ u

/-- Whether the pattern can match the empty string (an over-approximation). -/
def Regexp.nullable : Regexp → Bool
  | .lit w => w.data.isEmpty
  | .anyNotNL => false
  | .range _ _ => false
  | .cat a b => a.nullable && b.nullable
  | .plus a => a.nullable
  | .quest _ => true
  | .cap a => a.nullable
  | .endText => true

/-- The patterns the matcher is complete for: every iterated body reads at least one
character. -/
def Regexp.WF : Regexp → Bool
  | .cat a b => a.WF && b.WF
  | .plus a => a.WF && !a.nullable
  | .quest a => a.WF
  | .cap a => a.WF
  | _ => true

/-- The text that group 1 of the join pattern holds in the match selected in the line `s`:
`name` stands between `ServerLobby: New player ` and ` with online id ` followed by a digit,
it is a non-empty run without newline, the occurrence is the leftmost one in the line and
`name` is the longest run possible there. -/
def IsJoinCapture (s name : List Char) : Prop :=
  ∃ pre d post,
    s = pre ++ "ServerLobby: New player ".data ++ name ++ " with online id ".data ++ d :: post ∧
    name ≠ [] ∧ '\n' ∉ name ∧ '0' ≤ d ∧ d ≤ '9' ∧
    (∀ pre1 name1 d1 post1,
      s = pre1 ++ "ServerLobby: New player ".data ++ name1 ++ " with online id ".data
            ++ d1 :: post1 →
      name1 ≠ [] → '\n' ∉ name1 → '0' ≤ d1 → d1 ≤ '9' → pre.length ≤ pre1.length) ∧
    (∀ name1 d1 post1,
      name ++ " with online id ".data ++ d :: post
        = name1 ++ " with online id ".data ++ d1 :: post1 →
      name1 ≠ [] → '\n' ∉ name1 → '0' ≤ d1 → d1 ≤ '9' → name1.length ≤ name.length)

/-- The part of the join pattern after the group: ` with online id [0-9][0-9]?`. -/
def joinTail : Regexp :=
  .cat (.lit " with online id ") (.cat (.range '0' '9') (.quest (.range '0' '9')))

theorem dropLit_eq_some {w s s' : List Char} : dropLit w s = some s' ↔ s = w ++ s' := by
  induction w generalizing s with
  | nil => simp [dropLit, eq_comm]
  | cons c w ih =>
    cases s with
    | nil => simp [dropLit]
    | cons x s =>
      by_cases h : x = c
      · simp [dropLit, h, ih]
      · simp [dropLit, h]

theorem plusLoop_sound {step : Thread → List Thread} {R : Thread → Thread → Prop}
    (h : ∀ t u, u ∈ step t → R t u) :
    ∀ n t u, u ∈ plusLoop step n t → Relation.TransGen R t u := by
  intro n
  induction n with
  | zero => intro t u hu; simp [plusLoop] at hu
  | succ n ih =>
    intro t u hu
    simp only [plusLoop, List.mem_flatMap, List.mem_append, List.mem_singleton] at hu
    obtain ⟨m, hm, hu | rfl⟩ := hu
    · exact Relation.TransGen.head (h _ _ hm) (ih _ _ hu)
    · exact Relation.TransGen.single (h _ _ hm)

theorem plusLoop_complete {step : Thread → List Thread} {R : Thread → Thread → Prop}
    (h : ∀ t u, R t u → u ∈ step t)
    (hlt : ∀ t u, R t u → u.rest.length < t.rest.length) {t u : Thread}
    (htu : Relation.TransGen R t u) :
    ∀ n, t.rest.length < n → u ∈ plusLoop step n t := by
  induction htu using Relation.TransGen.head_induction_on with
  | base hr =>
    intro n hn
    cases n with
    | zero => omega
    | succ n =>
      simp only [plusLoop, List.mem_flatMap, List.mem_append, List.mem_singleton]
      exact ⟨_, h _ _ hr, Or.inr rfl⟩
  | ih hr _ ih =>
    intro n hn
    cases n with
    | zero => omega
    | succ n =>
      simp only [plusLoop, List.mem_flatMap, List.mem_append, List.mem_singleton]
      have := hlt _ _ hr
      exact ⟨_, h _ _ hr, Or.inl (ih n (by omega))⟩

/-- What a pattern leaves is a suffix of what it was given. -/
theorem Regexp.Den.suffix {r : Regexp} {t u : Thread} (h : r.Den t u) :
    ∃ w, t.rest = w ++ u.rest := by
  induction r generalizing t u with
  | lit w => exact ⟨w.data, h.1⟩
  | anyNotNL => obtain ⟨c, _, hc, _⟩ := h; exact ⟨[c], by simp [hc]⟩
  | range lo hi => obtain ⟨c, _, _, hc, _⟩ := h; exact ⟨[c], by simp [hc]⟩
  | cat a b iha ihb =>
    obtain ⟨m, h1, h2⟩ := h
    obtain ⟨w1, e1⟩ := iha h1
    obtain ⟨w2, e2⟩ := ihb h2
    exact ⟨w1 ++ w2, by simp [e1, e2]⟩
  | plus a iha =>
    simp only [Regexp.Den] at h
    induction h with
    | single h1 => exact iha h1
    | tail _ h2 ih =>
      obtain ⟨w1, e1⟩ := ih
      obtain ⟨w2, e2⟩ := iha h2
      exact ⟨w1 ++ w2, by simp [e1, e2]⟩
  | quest a iha =>
    rcases h with h | rfl
    · exact iha h
    · exact ⟨[], rfl⟩
  | cap a iha =>
    obtain ⟨m, w, _, e, rfl⟩ := h
    exact ⟨w, e⟩
  | endText => obtain ⟨_, rfl⟩ := h; exact ⟨[], rfl⟩

/-- A pattern that is not nullable reads at least one character. -/
theorem Regexp.Den.length_lt {r : Regexp} (hn : r.nullable = false) {t u : Thread}
    (h : r.Den t u) : u.rest.length < t.rest.length := by
  induction r generalizing t u with
  | lit w =>
    have e := h.1
    simp only [Regexp.nullable] at hn
    cases hw : w.data with
    | nil => simp [hw] at hn
    | cons c cs => simp only [e, hw, List.cons_append, List.length_cons, List.length_append]; omega
  | anyNotNL => obtain ⟨c, _, hc, _⟩ := h; simp [hc]
  | range lo hi => obtain ⟨c, _, _, hc, _⟩ := h; simp [hc]
  | cat a b iha ihb =>
    obtain ⟨m, h1, h2⟩ := h
    obtain ⟨w1, e1⟩ := h1.suffix
    obtain ⟨w2, e2⟩ := h2.suffix
    simp only [Regexp.nullable, Bool.and_eq_false_iff] at hn
    rcases hn with hn | hn
    · have := iha hn h1
      have : m.rest.length = w2.length + u.rest.length := by simp [e2]
      omega
    · have := ihb hn h2
      have : t.rest.length = w1.length + m.rest.length := by simp [e1]
      omega
  | plus a iha =>
    simp only [Regexp.nullable] at hn
    simp only [Regexp.Den] at h
    induction h with
    | single h1 => exact iha hn h1
    | tail _ h2 ih => exact lt_trans (iha hn h2) ih
  | quest a _ => simp [Regexp.nullable] at hn
  | cap a iha =>
    obtain ⟨m, w, h1, _, rfl⟩ := h
    simp only [Regexp.nullable] at hn
    exact (iha hn h1 : m.rest.length < t.rest.length)
  | endText => simp [Regexp.nullable] at hn

/-- Soundness of the matcher: every result is a reading of the pattern. -/
theorem Regexp.run_sound {r : Regexp} {t u : Thread} (h : u ∈ r.run t) : r.Den t u := by
  induction r generalizing t u with
  | lit w =>
    simp only [Regexp.run] at h
    cases hd : dropLit w.data t.rest with
    | none => simp [hd] at h
    | some s =>
      simp only [hd, List.mem_singleton] at h
      subst h
      exact ⟨dropLit_eq_some.1 hd, rfl⟩
  | anyNotNL =>
    simp only [Regexp.run] at h
    cases hr : t.rest with
    | nil => simp [hr] at h
    | cons x s =>
      simp only [hr] at h
      by_cases hx : x = '\n'
      · simp [hx] at h
      · simp only [hx, if_false, List.mem_singleton] at h
        subst h
        exact ⟨x, hx, hr, rfl⟩
  | range lo hi =>
    simp only [Regexp.run] at h
    cases hr : t.rest with
    | nil => simp [hr] at h
    | cons x s =>
      simp only [hr] at h
      by_cases hx : lo ≤ x ∧ x ≤ hi
      · simp only [hx, and_self, if_true, List.mem_singleton] at h
        subst h
        exact ⟨x, hx.1, hx.2, hr, rfl⟩
      · simp [hx] at h
  | cat a b iha ihb =>
    simp only [Regexp.run, List.mem_flatMap] at h
    obtain ⟨m, h1, h2⟩ := h
    exact ⟨m, iha h1, ihb h2⟩
  | plus a iha =>
    simp only [Regexp.run] at h
    exact plusLoop_sound (fun _ _ => iha) _ _ _ h
  | quest a iha =>
    simp only [Regexp.run, List.mem_append, List.mem_singleton] at h
    rcases h with h | rfl
    · exact Or.inl (iha h)
    · exact Or.inr rfl
  | cap a iha =>
    simp only [Regexp.run, List.mem_map] at h
    obtain ⟨m, h1, rfl⟩ := h
    obtain ⟨w, e⟩ := (iha h1).suffix
    refine ⟨m, w, iha h1, e, ?_⟩
    simp [e]
  | endText =>
    simp only [Regexp.run] at h
    cases hr : t.rest with
    | nil =>
      simp only [hr, List.mem_singleton] at h
      exact ⟨hr, h⟩
    | cons x s => simp [hr] at h

/-- Completeness of the matcher on well-formed patterns: every reading is a result. -/
theorem Regexp.run_complete {r : Regexp} (hwf : r.WF = true) {t u : Thread} (h : r.Den t u) :
    u ∈ r.run t := by
  induction r generalizing t u with
  | lit w =>
    obtain ⟨e, hc⟩ := h
    have hd := dropLit_eq_some.2 e
    cases u
    simp only [Regexp.run, hd, List.mem_singleton]
    simp_all
  | anyNotNL =>
    obtain ⟨c, hc, e, hcap⟩ := h
    cases u
    simp only [Regexp.run, e, hc, if_false, List.mem_singleton]
    simp_all
  | range lo hi =>
    obtain ⟨c, h1, h2, e, hcap⟩ := h
    cases u
    simp only [Regexp.run, e, h1, h2, and_self, if_true, List.mem_singleton]
    simp_all
  | cat a b iha ihb =>
    simp only [Regexp.WF, Bool.and_eq_true] at hwf
    obtain ⟨m, h1, h2⟩ := h
    simp only [Regexp.run, List.mem_flatMap]
    exact ⟨m, iha hwf.1 h1, ihb hwf.2 h2⟩
  | plus a iha =>
    simp only [Regexp.WF, Bool.and_eq_true, Bool.not_eq_true'] at hwf
    simp only [Regexp.run]
    simp only [Regexp.Den] at h
    exact plusLoop_complete (R := a.Den) (fun _ _ hd => iha hwf.1 hd)
      (fun _ _ hd => Regexp.Den.length_lt hwf.2 hd) h _ (Nat.lt_succ_self _)
  | quest a iha =>
    simp only [Regexp.WF] at hwf
    simp only [Regexp.run, List.mem_append, List.mem_singleton]
    rcases h with h | rfl
    · exact Or.inl (iha hwf h)
    · exact Or.inr rfl
  | cap a iha =>
    simp only [Regexp.WF] at hwf
    obtain ⟨m, w, h1, e, rfl⟩ := h
    simp only [Regexp.run, List.mem_map]
    refine ⟨m, iha hwf h1, ?_⟩
    simp [e]
  | endText =>
    obtain ⟨e, rfl⟩ := h
    simp [Regexp.run, e]

/-- What a successful search returns: the leftmost start position that has a match, and the
first match there. -/
theorem Regexp.search_some {r : Regexp} {s start : List Char} {u : Thread}
    (h : r.search s = some (start, u)) :
    ∃ pre, s = pre ++ start ∧ (r.run ⟨start, none⟩).head? = some u ∧
      ∀ pre1 start1, s = pre1 ++ start1 → pre1.length < pre.length →
        r.run ⟨start1, none⟩ = [] := by
  induction s with
  | nil =>
    simp only [Regexp.search, Option.map_eq_some', Prod.mk.injEq] at h
    obtain ⟨v, hv, rfl, rfl⟩ := h
    exact ⟨[], rfl, hv, fun _ _ _ hlt => absurd hlt (Nat.not_lt_zero _)⟩
  | cons c s ih =>
    simp only [Regexp.search] at h
    cases hh : (r.run ⟨c :: s, none⟩).head? with
    | some v =>
      simp only [hh, Option.some.injEq, Prod.mk.injEq] at h
      obtain ⟨rfl, rfl⟩ := h
      exact ⟨[], rfl, hh, fun _ _ _ hlt => absurd hlt (Nat.not_lt_zero _)⟩
    | none =>
      simp only [hh] at h
      obtain ⟨pre, e, hu, hleft⟩ := ih h
      refine ⟨c :: pre, by simp [e], hu, ?_⟩
      intro pre1 start1 e1 hlt
      cases pre1 with
      | nil =>
        simp only [List.nil_append] at e1
        subst e1
        exact List.head?_eq_none_iff.1 hh
      | cons x pre1 =>
        simp only [List.cons_append, List.cons.injEq] at e1
        exact hleft pre1 start1 e1.2 (by simpa using hlt)

/-- A failed search: the pattern has no match at any start position. -/
theorem Regexp.search_none {r : Regexp} {s : List Char} (h : r.search s = none) :
    ∀ pre start, s = pre ++ start → r.run ⟨start, none⟩ = [] := by
  induction s with
  | nil =>
    intro pre start e
    simp only [Regexp.search, Option.map_eq_none', List.head?_eq_none_iff] at h
    have : start = [] := (List.append_eq_nil.1 e.symm).2
    subst this
    exact h
  | cons c s ih =>
    intro pre start e
    simp only [Regexp.search] at h
    cases hh : (r.run ⟨c :: s, none⟩).head? with
    | some v => simp [hh] at h
    | none =>
      simp only [hh] at h
      cases pre with
      | nil =>
        simp only [List.nil_append] at e
        subst e
        exact List.head?_eq_none_iff.1 hh
      | cons x pre =>
        simp only [List.cons_append, List.cons.injEq] at e
        exact ih h pre start e.2

/-- On a well-formed pattern `MatchString` decides the declarative `Matches`. -/
theorem Regexp.MatchString_iff {r : Regexp} (hwf : r.WF = true) (s : String) :
    r.MatchString s = true ↔ r.Matches s.data := by
  constructor
  · intro h
    simp only [Regexp.MatchString, Option.isSome_iff_exists, Prod.exists] at h
    obtain ⟨start, u, hs⟩ := h
    obtain ⟨pre, e, hu, _⟩ := Regexp.search_some hs
    exact ⟨pre, start, u, e, Regexp.run_sound (List.mem_of_mem_head? hu)⟩
  · rintro ⟨pre, start, u, e, hd⟩
    cases hs : r.search s.data with
    | none =>
      have := Regexp.search_none hs pre start e
      have hm := Regexp.run_complete hwf hd
      simp [this] at hm
    | some v => simp [Regexp.MatchString, hs]

/-- The meaning of `.+`: a non-empty run of characters other than the newline. -/
theorem den_plus_anyNotNL {t u : Thread} :
    (Regexp.plus .anyNotNL).Den t u ↔
      ∃ w, w ≠ [] ∧ '\n' ∉ w ∧ t.rest = w ++ u.rest ∧ u.cap = t.cap := by
  simp only [Regexp.Den]
  constructor
  · intro h
    induction h with
    | single h1 =>
      obtain ⟨c, hc, e, hcap⟩ := h1
      exact ⟨[c], by simp, by simpa using hc.symm, by simp [e], hcap⟩
    | tail _ h2 ih =>
      obtain ⟨w, hw, hnl, e, hcap⟩ := ih
      obtain ⟨c, hc, e2, hcap2⟩ := h2
      refine ⟨w ++ [c], by simp, ?_, by simp [e, e2], hcap2.trans hcap⟩
      simp only [List.mem_append, List.mem_singleton, not_or]
      exact ⟨hnl, hc.symm⟩
  · rintro ⟨w, hw, hnl, e, hcap⟩
    induction w generalizing t with
    | nil => exact absurd rfl hw
    | cons c w ih =>
      simp only [List.mem_cons, not_or] at hnl
      cases w with
      | nil =>
        exact Relation.TransGen.single ⟨c, fun h => hnl.1 h.symm, by simpa using e, hcap⟩
      | cons c2 w =>
        have step : (Regexp.anyNotNL).Den t ⟨c2 :: w ++ u.rest, t.cap⟩ :=
          ⟨c, fun h => hnl.1 h.symm, by simpa using e, rfl⟩
        exact Relation.TransGen.head step
          (ih (t := ⟨c2 :: w ++ u.rest, t.cap⟩) (by simp) hnl.2 rfl hcap)

/-- The first result of a `flatMap`: it comes from the first element that has any result. -/
theorem head?_flatMap_some {α β : Type} {f : α → List β} {l : List α} {v : β}
    (h : (l.flatMap f).head? = some v) :
    ∃ l1 m l2, l = l1 ++ m :: l2 ∧ (∀ x ∈ l1, f x = []) ∧ (f m).head? = some v := by
  induction l with
  | nil => simp at h
  | cons a l ih =>
    rw [List.flatMap_cons] at h
    cases hfa : f a with
    | nil =>
      rw [hfa, List.nil_append] at h
      obtain ⟨l1, m, l2, e, hl1, hm⟩ := ih h
      refine ⟨a :: l1, m, l2, by simp [e], ?_, hm⟩
      intro x hx
      rcases List.mem_cons.1 hx with rfl | hx
      · exact hfa
      · exact hl1 x hx
    | cons b bs =>
      rw [hfa] at h
      exact ⟨[], a, l, rfl, by simp, by rw [hfa]; simpa using h⟩

/-- The results of `.+` come longest run first. -/
theorem plusLoop_any_pairwise (n : Nat) (t : Thread) :
    (plusLoop Regexp.anyNotNL.run n t).Pairwise
      (fun u v => u.rest.length < v.rest.length) := by
  induction n generalizing t with
  | zero => simp [plusLoop]
  | succ n ih =>
    cases ht : t.rest with
    | nil => simp [plusLoop, Regexp.run, ht]
    | cons x s =>
      by_cases hx : x = '\n'
      · simp [plusLoop, Regexp.run, ht, hx]
      · simp only [plusLoop, Regexp.run, ht, hx, if_false, List.flatMap_cons, List.flatMap_nil,
          List.append_nil]
        rw [List.pairwise_append]
        refine ⟨ih _, by simp, ?_⟩
        intro a ha b hb
        rw [List.mem_singleton] at hb
        subst hb
        have hd : (Regexp.plus .anyNotNL).Den ⟨s, t.cap⟩ a :=
          plusLoop_sound (R := Regexp.anyNotNL.Den) (fun _ _ h => Regexp.run_sound h) _ _ _ ha
        exact Regexp.Den.length_lt (r := .plus .anyNotNL) rfl hd

/-- The match selected for `(.+)Y`: the group holds a non-empty run without newline after which
`Y` matches, and the longest such run. -/
theorem cap_plus_cat_head {Y : Regexp} (hY : Y.WF = true) {t u : Thread}
    (h : ((Regexp.cat (.cap (.plus .anyNotNL)) Y).run t).head? = some u) :
    ∃ name rest, t.rest = name ++ rest ∧ name ≠ [] ∧ '\n' ∉ name ∧
      Y.Den ⟨rest, some name⟩ u ∧
      ∀ name1 rest1 u1, t.rest = name1 ++ rest1 → name1 ≠ [] → '\n' ∉ name1 →
        Y.Den ⟨rest1, some name1⟩ u1 → name1.length ≤ name.length := by
  have h' : (((Regexp.cap (.plus .anyNotNL)).run t).flatMap Y.run).head? = some u := h
  obtain ⟨l1, m, l2, e, hl1, hm⟩ := head?_flatMap_some h'
  have hsorted : ((Regexp.cap (.plus .anyNotNL)).run t).Pairwise
      (fun u v => u.rest.length < v.rest.length) :=
    List.pairwise_map.2 (plusLoop_any_pairwise (t.rest.length + 1) t)
  rw [e] at hsorted
  have hmem : m ∈ (Regexp.cap (.plus .anyNotNL)).run t := by
    rw [e]
    simp
  obtain ⟨m0, name, hplus, hname, rfl⟩ : (Regexp.cap (.plus .anyNotNL)).Den t m :=
    Regexp.run_sound hmem
  obtain ⟨w, hw, hnl, hwe, _⟩ := den_plus_anyNotNL.1 hplus
  have hwn : w = name := List.append_cancel_right (hwe.symm.trans hname)
  subst hwn
  refine ⟨w, m0.rest, hname, hw, hnl, Regexp.run_sound (List.mem_of_mem_head? hm), ?_⟩
  intro name1 rest1 u1 e1 hne1 hnl1 hd1
  have hm1 : (⟨rest1, some name1⟩ : Thread) ∈ (Regexp.cap (.plus .anyNotNL)).run t := by
    apply Regexp.run_complete (r := .cap (.plus .anyNotNL)) rfl
    exact ⟨⟨rest1, t.cap⟩, name1, den_plus_anyNotNL.2 ⟨name1, hne1, hnl1, e1, rfl⟩, e1, rfl⟩
  rw [e] at hm1
  have hlen : t.rest.length = w.length + m0.rest.length := by simp [hname]
  have hlen1 : t.rest.length = name1.length + rest1.length := by simp [e1]
  rcases List.mem_append.1 hm1 with hin | hin
  · have := hl1 _ hin
    have hu1 := Regexp.run_complete hY hd1
    simp [this] at hu1
  · rcases List.mem_cons.1 hin with heq | hin2
    · have hr : rest1 = m0.rest := congrArg Thread.rest heq
      rw [hr] at hlen1
      omega
    · have := (List.pairwise_cons.1 (List.pairwise_append.1 hsorted).2.1).1 _ hin2
      simp only at this
      omega

theorem serverStart_WF : serverStart.WF = true := by decide
theorem playerJoin_WF : playerJoin.WF = true := by decide
theorem playerLeave_WF : playerLeave.WF = true := by decide
theorem noMorePlayers_WF : noMorePlayers.WF = true := by decide

/-- After a successful `MatchString`, `FindSubmatch` of a pattern with a group has index 1:
the text the group captured in the selected match. -/
theorem Regexp.FindSubmatch_get_one {r : Regexp} (hc : r.hasCap = true) {s : String}
    (hm : r.MatchString s = true) :
    ∃ start u, r.search s.data = some (start, u) ∧
      (r.FindSubmatch s).get? 1 = some (String.mk (u.cap.getD [])) := by
  simp only [Regexp.MatchString, Option.isSome_iff_exists, Prod.exists] at hm
  obtain ⟨start, u, hs⟩ := hm
  exact ⟨start, u, hs, by simp [Regexp.FindSubmatch, hs, hc]⟩

theorem joinTail_den_intro {d : Char} (h0 : '0' ≤ d) (h9 : d ≤ '9') (post : List Char)
    (c : Option (List Char)) :
    joinTail.Den ⟨" with online id ".data ++ d :: post, c⟩ ⟨post, c⟩ :=
  ⟨⟨d :: post, c⟩, ⟨rfl, rfl⟩, ⟨post, c⟩, ⟨d, h0, h9, rfl, rfl⟩, Or.inr rfl⟩

theorem joinTail_den_elim {t u : Thread} (h : joinTail.Den t u) :
    ∃ d post, '0' ≤ d ∧ d ≤ '9' ∧ t.rest = " with online id ".data ++ d :: post ∧
      u.cap = t.cap := by
  obtain ⟨m1, ⟨e1, c1⟩, m2, ⟨d, h0, h9, e2, c2⟩, h3⟩ := h
  refine ⟨d, m2.rest, h0, h9, by rw [e1, e2], ?_⟩
  rcases h3 with ⟨_, _, _, _, c3⟩ | rfl
  · rw [c3, c2, c1]
  · rw [c2, c1]

theorem playerJoin_den_intro {name : List Char} (hne : name ≠ []) (hnl : '\n' ∉ name) {d : Char}
    (h0 : '0' ≤ d) (h9 : d ≤ '9') (post : List Char) :
    playerJoin.Den
      ⟨"ServerLobby: New player ".data ++ name ++ " with online id ".data ++ d :: post, none⟩
      ⟨post, some name⟩ := by
  refine ⟨⟨name ++ " with online id ".data ++ d :: post, none⟩, ⟨by simp, rfl⟩,
    ⟨" with online id ".data ++ d :: post, some name⟩, ?_, joinTail_den_intro h0 h9 post _⟩
  exact ⟨⟨" with online id ".data ++ d :: post, none⟩, name,
    den_plus_anyNotNL.2 ⟨name, hne, hnl, by simp, rfl⟩, by simp, rfl⟩

/-- The match `FindSubmatch` selects for the join pattern, in declarative terms. -/
theorem playerJoin_search {s start : List Char} {u : Thread}
    (h : playerJoin.search s = some (start, u)) : IsJoinCapture s (u.cap.getD []) := by
  obtain ⟨pre, e, hu, hleft⟩ := Regexp.search_some h
  have hu' : (((Regexp.lit "ServerLobby: New player ").run ⟨start, none⟩).flatMap
      (Regexp.cat (.cap (.plus .anyNotNL)) joinTail).run).head? = some u := hu
  obtain ⟨l1, m, l2, el, _, hm⟩ := head?_flatMap_some hu'
  have hmem : m ∈ (Regexp.lit "ServerLobby: New player ").run ⟨start, none⟩ := by
    rw [el]; simp
  obtain ⟨estart, _⟩ : (Regexp.lit "ServerLobby: New player ").Den ⟨start, none⟩ m :=
    Regexp.run_sound hmem
  obtain ⟨name, rest, erest, hne, hnl, hd, hgreedy⟩ :=
    cap_plus_cat_head (Y := joinTail) (by decide) hm
  obtain ⟨d, post, h0, h9, epost, hcap⟩ := joinTail_den_elim hd
  simp only at estart epost hcap
  rw [hcap, Option.getD_some]
  refine ⟨pre, d, post, ?_, hne, hnl, h0, h9, ?_, ?_⟩
  · rw [e, estart, erest, epost]; simp
  · intro pre1 name1 d1 post1 e1 hne1 hnl1 h01 h91
    by_contra hlt
    have hrun := hleft pre1
      ("ServerLobby: New player ".data ++ name1 ++ " with online id ".data ++ d1 :: post1)
      (by rw [e1]; simp) (not_le.1 hlt)
    have := Regexp.run_complete playerJoin_WF (playerJoin_den_intro hne1 hnl1 h01 h91 post1)
    rw [hrun] at this
    simp at this
  · intro name1 d1 post1 e1 hne1 hnl1 h01 h91
    refine hgreedy name1 (" with online id ".data ++ d1 :: post1) ⟨post1, some name1⟩ ?_ hne1 hnl1
      (joinTail_den_intro h01 h91 post1 _)
    rw [erest, epost]
    simpa using e1

/-- Reading of the serverStart pattern: the line contains `Listening has been started`. -/
theorem serverStart_matches (s : List Char) :
    serverStart.Matches s ↔
      ∃ pre post, s = pre ++ "Listening has been started".data ++ post := by
  constructor
  · rintro ⟨pre, start, u, e, hd, _⟩
    simp only at hd
    exact ⟨pre, u.rest, by rw [e, hd, List.append_assoc]⟩
  · rintro ⟨pre, post, e⟩
    exact ⟨pre, _ ++ post, ⟨post, none⟩, by rw [e, List.append_assoc], rfl, rfl⟩

/-- The parts of a match of `(.+)` followed by a pattern `Y`. -/
theorem cap_plus_cat_den {Y : Regexp} {t u : Thread}
    (h : (Regexp.cat (.cap (.plus .anyNotNL)) Y).Den t u) :
    ∃ name rest, t.rest = name ++ rest ∧ name ≠ [] ∧ '\n' ∉ name ∧
      Y.Den ⟨rest, some name⟩ u := by
  obtain ⟨m2, ⟨m, w, hplus, ew, rfl⟩, hY⟩ := h
  obtain ⟨w1, hw1, hnl, e1, _⟩ := den_plus_anyNotNL.1 hplus
  have : w1 = w := List.append_cancel_right (e1.symm.trans ew)
  subst this
  exact ⟨w1, m.rest, ew, hw1, hnl, hY⟩

/-- Reading of the join pattern: the line contains `ServerLobby: New player `, a non-empty
name without newline, ` with online id ` and a digit. -/
theorem playerJoin_matches (s : List Char) :
    playerJoin.Matches s ↔
      ∃ pre name d post,
        s = pre ++ "ServerLobby: New player ".data ++ name ++ " with online id ".data
              ++ d :: post ∧
        name ≠ [] ∧ '\n' ∉ name ∧ '0' ≤ d ∧ d ≤ '9' := by
  constructor
  · rintro ⟨pre, start, u, e, m1, ⟨e1, _⟩, hrest⟩
    obtain ⟨name, rest, er, hne, hnl, hY⟩ :=
      cap_plus_cat_den (Y := joinTail) hrest
    obtain ⟨d, post, h0, h9, ep, _⟩ := joinTail_den_elim hY
    simp only at e1 ep
    exact ⟨pre, name, d, post, by rw [e, e1, er, ep]; simp, hne, hnl, h0, h9⟩
  · rintro ⟨pre, name, d, post, e, hne, hnl, h0, h9⟩
    exact ⟨pre, _, _, by rw [e]; simp, playerJoin_den_intro hne hnl h0 h9 post⟩

/-- Reading of the leave pattern: the line ends with `ServerLobby: `, a non-empty name
without newline and ` disconnected`. -/
theorem playerLeave_matches (s : List Char) :
    playerLeave.Matches s ↔
      ∃ pre name,
        s = pre ++ "ServerLobby: ".data ++ name ++ " disconnected".data ∧
        name ≠ [] ∧ '\n' ∉ name := by
  constructor
  · rintro ⟨pre, start, u, e, m1, ⟨e1, _⟩, hrest⟩
    obtain ⟨name, rest, er, hne, hnl, m3, ⟨e3, _⟩, ⟨e4, _⟩⟩ :=
      cap_plus_cat_den (Y := .cat (.lit " disconnected") .endText) hrest
    simp only at e1 e3
    exact ⟨pre, name, by rw [e, e1, er, e3, e4]; simp, hne, hnl⟩
  · rintro ⟨pre, name, e, hne, hnl⟩
    refine ⟨pre, "ServerLobby: ".data ++ name ++ " disconnected".data, ⟨[], some name⟩,
      by rw [e]; simp, ⟨name ++ " disconnected".data, none⟩, ⟨by simp, rfl⟩,
      ⟨" disconnected".data, some name⟩, ?_, ⟨[], some name⟩, ⟨by simp, rfl⟩, rfl, rfl⟩
    exact ⟨⟨" disconnected".data, none⟩, name,
      den_plus_anyNotNL.2 ⟨name, hne, hnl, rfl, rfl⟩, rfl, rfl⟩

/-- Reading of the noMorePlayers pattern: the line contains `STKHost`, then a non-empty run
without newline, and ends with `There are now 0 peers.`. -/
theorem noMorePlayers_matches (s : List Char) :
    noMorePlayers.Matches s ↔
      ∃ pre mid,
        s = pre ++ "STKHost".data ++ mid ++ "There are now 0 peers.".data ∧
        mid ≠ [] ∧ '\n' ∉ mid := by
  constructor
  · rintro ⟨pre, start, u, e, m1, ⟨e1, _⟩, m2, hplus, m3, ⟨e3, _⟩, ⟨e4, _⟩⟩
    obtain ⟨mid, hne, hnl, em, _⟩ := den_plus_anyNotNL.1 hplus
    simp only at e1
    exact ⟨pre, mid, by rw [e, e1, em, e3, e4]; simp, hne, hnl⟩
  · rintro ⟨pre, mid, e, hne, hnl⟩
    exact ⟨pre, "STKHost".data ++ mid ++ "There are now 0 peers.".data, ⟨[], none⟩,
      by rw [e]; simp, ⟨mid ++ "There are now 0 peers.".data, none⟩, ⟨by simp, rfl⟩,
      ⟨"There are now 0 peers.".data, none⟩,
      den_plus_anyNotNL.2 ⟨mid, hne, hnl, rfl, rfl⟩,
      ⟨[], none⟩, ⟨by simp, rfl⟩, rfl, rfl⟩

/-- The match `FindSubmatch` selects for the leave pattern: the group holds a non-empty name
without newline, between `ServerLobby: ` and ` disconnected` at the end of the line. -/
theorem playerLeave_search {s start : List Char} {u : Thread}
    (h : playerLeave.search s = some (start, u)) :
    ∃ pre name, u.cap = some name ∧ name ≠ [] ∧ '\n' ∉ name ∧
      s = pre ++ "ServerLobby: ".data ++ name ++ " disconnected".data := by
  obtain ⟨pre, e, hu, _⟩ := Regexp.search_some h
  have hu' : (((Regexp.lit "ServerLobby: ").run ⟨start, none⟩).flatMap
      (Regexp.cat (.cap (.plus .anyNotNL))
        (.cat (.lit " disconnected") .endText)).run).head? = some u := hu
  obtain ⟨l1, m, l2, el, _, hm⟩ := head?_flatMap_some hu'
  have hmem : m ∈ (Regexp.lit "ServerLobby: ").run ⟨start, none⟩ := by
    rw [el]; simp
  obtain ⟨estart, _⟩ : (Regexp.lit "ServerLobby: ").Den ⟨start, none⟩ m :=
    Regexp.run_sound hmem
  obtain ⟨name, rest, erest, hne, hnl, ⟨m3, ⟨e3, c3⟩, ⟨e4, rfl⟩⟩, _⟩ :=
    cap_plus_cat_head (Y := .cat (.lit " disconnected") .endText) (by decide) hm
  simp only at estart e3 c3
  refine ⟨pre, name, c3, hne, hnl, ?_⟩
  rw [e, estart, erest, e3, e4]
  simp

/-- The five results of `handleLogLine`: the player is set exactly with PLAYERJOIN and
PLAYERLEAVE, and then the name is not empty. -/
theorem handleLogLine_cases (line : String) :
    handleLogLine line = some ⟨["server ready"], "READY", none⟩ ∨
    (∃ name : String, name.data ≠ [] ∧ handleLogLine line
      = some ⟨["Player " ++ name ++ " joined\n"], "PLAYERJOIN", some name⟩) ∨
    (∃ name : String, name.data ≠ [] ∧ handleLogLine line
      = some ⟨["Player " ++ name ++ " disconnected"], "PLAYERLEAVE", some name⟩) ∨
    handleLogLine line
      = some ⟨["server has no more players. shutting down"], "SHUTDOWN", none⟩ ∨
    handleLogLine line = some ⟨[], "", none⟩ := by
  unfold handleLogLine
  by_cases h1 : serverStart.MatchString line = true
  · exact Or.inl (if_pos h1)
  rw [if_neg h1]
  by_cases h2 : playerJoin.MatchString line = true
  · obtain ⟨start, u, hs, hg⟩ := Regexp.FindSubmatch_get_one (r := playerJoin) rfl h2
    obtain ⟨_, _, _, _, hne, _⟩ := playerJoin_search hs
    rw [if_pos h2, hg]
    exact Or.inr (Or.inl ⟨String.mk (u.cap.getD []), hne, rfl⟩)
  rw [if_neg h2]
  by_cases h3 : playerLeave.MatchString line = true
  · obtain ⟨start, u, hs, hg⟩ := Regexp.FindSubmatch_get_one (r := playerLeave) rfl h3
    obtain ⟨_, name, hcap, hne, _⟩ := playerLeave_search hs
    rw [if_pos h3, hg, hcap]
    exact Or.inr (Or.inr (Or.inl ⟨String.mk name, hne, rfl⟩))
  rw [if_neg h3]
  by_cases h4 : noMorePlayers.MatchString line = true
  · exact Or.inr (Or.inr (Or.inr (Or.inl (if_pos h4))))
  · exact Or.inr (Or.inr (Or.inr (Or.inr (if_neg h4))))

/-- The message logged for a player differs from "could not determine player". -/
theorem player_log_ne (name rest : String) :
    "Player " ++ name ++ rest ≠ "could not determine player" := by
  intro h
  have := congrArg (fun s : String => s.data.head?) h
  simp [String.data_append] at this

/-- Function `handleLogLine` never panics: index 1 of the submatches is only read after a
successful match of a pattern with a group. -/
theorem handleLogLine_total (line : String) : ∃ res, handleLogLine line = some res := by
  unfold handleLogLine
  by_cases h1 : serverStart.MatchString line = true
  · exact ⟨_, if_pos h1⟩
  rw [if_neg h1]
  by_cases h2 : playerJoin.MatchString line = true
  · obtain ⟨start, u, _, hg⟩ := Regexp.FindSubmatch_get_one (r := playerJoin) rfl h2
    rw [if_pos h2, hg]
    exact ⟨_, rfl⟩
  rw [if_neg h2]
  by_cases h3 : playerLeave.MatchString line = true
  · obtain ⟨start, u, _, hg⟩ := Regexp.FindSubmatch_get_one (r := playerLeave) rfl h3
    rw [if_pos h3, hg]
    exact ⟨_, rfl⟩
  rw [if_neg h3]
  by_cases h4 : noMorePlayers.MatchString line = true
  · exact ⟨_, if_pos h4⟩
  · exact ⟨_, if_neg h4⟩

/-- The body of the tail loop ends the process exactly on a SHUTDOWN line, with code 0. -/
theorem tailBody_exit (track : Bool) (line : String) :
    (tailBody track line).2 = if classifiedShutdown line = true then some (.code 0) else none := by
  obtain ⟨res, hres⟩ := handleLogLine_total line
  unfold tailBody classifiedShutdown
  rw [hres]
  simp only
  by_cases ha : res.action = "SHUTDOWN"
  · simp [ha]
  · simp only [ha, decide_False, Bool.false_eq_true, if_false]
    split_ifs <;> try rfl
    all_goals (split <;> try rfl)

/-- The tail loop leaves the process state as it is. -/
theorem tailLoop_world (track : Bool) (w : World) (lines : List String) :
    (tailLoop track w lines).world = w := by
  induction lines with
  | nil => rfl
  | cons l ls ih =>
    unfold tailLoop
    split
    · rfl
    · exact ih

/-- What the tail loop writes and how it ends does not depend on the process state. -/
theorem tailLoop_indep (track : Bool) (w w1 : World) (lines : List String) :
    (tailLoop track w lines).out = (tailLoop track w1 lines).out ∧
    (tailLoop track w lines).exit = (tailLoop track w1 lines).exit := by
  induction lines with
  | nil => exact ⟨rfl, rfl⟩
  | cons l ls ih =>
    unfold tailLoop
    split
    · exact ⟨rfl, rfl⟩
    · exact ⟨by simp only [ih.1], ih.2⟩

/-- On lines without SHUTDOWN the loop runs to the end of the tail. -/
theorem tailLoop_append (track : Bool) (w : World) (pre rest : List String)
    (hpre : ∀ x ∈ pre, classifiedShutdown x = false) :
    (tailLoop track w (pre ++ rest)).exit = (tailLoop track w rest).exit ∧
    ∃ out, (tailLoop track w (pre ++ rest)).out = out ++ (tailLoop track w rest).out ∧
      ∀ rest1, (tailLoop track w (pre ++ rest1)).out = out ++ (tailLoop track w rest1).out := by
  induction pre with
  | nil => exact ⟨rfl, [], rfl, fun _ => rfl⟩
  | cons l ls ih =>
    have hl : (tailBody track l).2 = none := by
      rw [tailBody_exit, hpre l (List.mem_cons_self _ _)]; rfl
    obtain ⟨hexit, out, hout, hall⟩ := ih (fun x hx => hpre x (List.mem_cons_of_mem _ hx))
    have key : ∀ r, tailLoop track w (l :: ls ++ r)
        = ⟨(tailBody track l).1 ++ (tailLoop track w (ls ++ r)).out,
            (tailLoop track w (ls ++ r)).exit, (tailLoop track w (ls ++ r)).world⟩ := by
      intro r
      rw [List.cons_append, tailLoop]
      cases hb : tailBody track l with
      | mk o e =>
        rw [hb] at hl
        simp only at hl
        subst hl
        rfl
    refine ⟨by rw [key]; exact hexit, (tailBody track l).1 ++ out, ?_, ?_⟩
    · rw [key]; simp only [hout, List.append_assoc]
    · intro r; rw [key]; simp only [hall r, List.append_assoc]

/-- While a session exists `OnProcessTerminate` returns, in the state `terminated`. -/
theorem OnProcessTerminate_ret (agent : Agent) (w : World) (d : GameServerSession)
    (req : ProcessTerminateRequest) (hd : w.manager.gameServerSession = some d) :
    rpcService.OnProcessTerminate agent w req = .ret (⟨⟩, none) (terminated w d req) := by
  cases hm : w.gseManagerIns with
  | none =>
    simp only [World.manager, GetGseManager, hm] at hd
    exact absurd hd (by simp)
  | some g =>
    simp only [World.manager, GetGseManager, hm] at hd
    simp [rpcService.OnProcessTerminate, GetGseManager, hm, World.setManager,
      gsemanager.SetTerminationTime, gsemanager.TerminateGameServerSession, hd,
      gsemanager.ProcessEnding, gsemanager.invoke, terminated, World.manager]

/-- For a request with a session `OnStartGameServerSession` returns, in the state `started`,
whatever the agent answers. -/
theorem OnStartGameServerSession_ret (agent : Agent) (w : World) (d : GameServerSession) :
    rpcService.OnStartGameServerSession agent w ⟨some d⟩ = .ret (⟨⟩, none) (started w d) := by
  cases hm : w.gseManagerIns with
  | none =>
    simp only [rpcService.OnStartGameServerSession, GetGseManager, hm, World.setManager,
      gsemanager.SetGameServerSession, gsemanager.ActivateGameServerSession,
      gsemanager.invoke, started, World.manager]
    split <;> simp_all
  | some g =>
    simp only [rpcService.OnStartGameServerSession, GetGseManager, hm, World.setManager,
      gsemanager.SetGameServerSession, gsemanager.ActivateGameServerSession,
      gsemanager.invoke, started, World.manager]
    split <;> simp_all

theorem GetGseManager_sent (w : World) : (GetGseManager w).2.sent = w.sent := by
  unfold GetGseManager
  split <;> rfl

theorem GetGseManager_rpcServerIns (w : World) :
    (GetGseManager w).2.rpcServerIns = w.rpcServerIns := by
  unfold GetGseManager
  split <;> rfl

/-- The conversion to `int32` keeps the numbers below `2^31`. -/
theorem int32_of_lt {n : Int} (h0 : 0 ≤ n) (h : n < 2 ^ 31) : int32 n = n := by
  unfold int32
  norm_num at h ⊢
  omega

/-- A debug handler on a request that passes its validation, when there is a request for it
to forward: it sends exactly that request, once, with the manager's pid, and writes the
success envelope when the agent answers and the envelope `errResponse` of the error
otherwise; nothing else changes. -/
theorem DebugHandler.serve_forwarded (h : DebugHandler) (agent : Agent) (w : World) (q : Query)
    (c : AgentCall) (hvalid : h.valid q = true) (hreq : h.request? w.manager q = some c) :
    h.serve agent w q
      = .ret
          (match agent w.sent ⟨w.manager.pid, c⟩ with
            | .ok p => ⟨0, "success", if h = .DescribePlayerSessions then some p else none⟩
            | .error e => errResponse e)
          { (GetGseManager w).2 with sent := w.sent ++ [⟨w.manager.pid, c⟩] } := by
  have hs := GetGseManager_sent w
  cases h with
  | Login =>
    simp only [DebugHandler.valid, decide_eq_true_eq] at hvalid
    simp only [DebugHandler.request?, Option.map_eq_some', World.manager] at hreq
    obtain ⟨d, hd, rfl⟩ := hreq
    simp only [DebugHandler.serve, httpProcess.Login, hvalid, if_false,
      gsemanager.AcceptPlayerSession, hd, gsemanager.invoke, hs, World.manager]
    cases agent w.sent ⟨(GetGseManager w).1.pid,
      .AcceptPlayerSession d.GameServerSessionId (q.Get "playerSessionId")⟩ <;> rfl
  | LoginOut =>
    simp only [DebugHandler.valid, decide_eq_true_eq] at hvalid
    simp only [DebugHandler.request?, Option.map_eq_some', World.manager] at hreq
    obtain ⟨d, hd, rfl⟩ := hreq
    simp only [DebugHandler.serve, httpProcess.LoginOut, hvalid, if_false,
      gsemanager.RemovePlayerSession, hd, gsemanager.invoke, hs, World.manager]
    cases agent w.sent ⟨(GetGseManager w).1.pid,
      .RemovePlayerSession d.GameServerSessionId (q.Get "playerSessionId")⟩ <;> rfl
  | TerminateSession =>
    simp only [DebugHandler.request?, Option.map_eq_some', World.manager] at hreq
    obtain ⟨d, hd, rfl⟩ := hreq
    simp only [DebugHandler.serve, httpProcess.TerminateSession,
      gsemanager.TerminateGameServerSession, hd, gsemanager.invoke, hs, World.manager]
    cases agent w.sent ⟨(GetGseManager w).1.pid,
      .TerminateGameServerSession d.GameServerSessionId⟩ <;> rfl
  | EndProcess =>
    simp only [DebugHandler.request?, Option.some.injEq] at hreq
    subst hreq
    simp only [DebugHandler.serve, httpProcess.EndProcess, gsemanager.ProcessEnding,
      gsemanager.invoke, hs, World.manager]
    cases agent w.sent ⟨(GetGseManager w).1.pid, .ProcessEnding⟩ <;> rfl
  | DescribePlayerSessions =>
    simp only [DebugHandler.request?, Option.some.injEq] at hreq
    subst hreq
    simp only [DebugHandler.serve, httpProcess.DescribePlayerSessions,
      gsemanager.DescribePlayerSessions, gsemanager.invoke, hs, World.manager]
    cases agent w.sent ⟨(GetGseManager w).1.pid,
      .DescribePlayerSessions (q.Get "gameServerSessionId") (q.Get "playerId")
        (q.Get "playerSessionId") (q.Get "playerSessionStatusFilter") (q.Get "nextToken")
        (int32 (Atoi (q.Get "limit")).1)⟩ <;> rfl
  | UpdatePlayerSessionCreationPolicy =>
    simp only [DebugHandler.request?, Option.map_eq_some', World.manager] at hreq
    obtain ⟨d, hd, rfl⟩ := hreq
    simp only [DebugHandler.serve, httpProcess.UpdatePlayerSessionCreationPolicy,
      gsemanager.UpdatePlayerSessionCreationPolicy, hd, gsemanager.invoke, hs, World.manager]
    cases agent w.sent ⟨(GetGseManager w).1.pid,
      .UpdatePlayerSessionCreationPolicy d.GameServerSessionId
        (q.Get "newPlayerSessionCreationPolicy")⟩ <;> rfl
  | ReportCustomData =>
    simp only [DebugHandler.valid, Bool.and_eq_true, Bool.not_eq_true'] at hvalid
    simp only [DebugHandler.request?, Option.some.injEq] at hreq
    subst hreq
    simp only [DebugHandler.serve, httpProcess.ReportCustomData, hvalid.1, hvalid.2,
      Bool.or_self, Bool.false_eq_true, if_false, gsemanager.ReportCustomData,
      gsemanager.invoke, hs, World.manager]
    cases agent w.sent ⟨(GetGseManager w).1.pid,
      .ReportCustomData (int32 (Atoi (q.Get "currentCustomCount")).1)
        (int32 (Atoi (q.Get "maxCustomCount")).1)⟩ <;> rfl
  | SetHealthStatus => simp [DebugHandler.request?] at hreq
  | HelloWorld => simp [DebugHandler.request?] at hreq

/-- A handler that calls the agent has a request to forward, once a session exists where it
needs one. -/
theorem DebugHandler.request?_isSome (h : DebugHandler) (g : gsemanager) (q : Query)
    (hcalls : h.callsAgent = true)
    (hsess : h.needsSession = true → g.gameServerSession ≠ none) :
    ∃ c, h.request? g q = some c := by
  cases h with
  | SetHealthStatus => simp [DebugHandler.callsAgent] at hcalls
  | HelloWorld => simp [DebugHandler.callsAgent] at hcalls
  | EndProcess => exact ⟨_, rfl⟩
  | DescribePlayerSessions => exact ⟨_, rfl⟩
  | ReportCustomData => exact ⟨_, rfl⟩
  | Login =>
    cases hg : g.gameServerSession with
    | none => exact absurd hg (hsess rfl)
    | some d => simp [DebugHandler.request?, hg]
  | LoginOut =>
    cases hg : g.gameServerSession with
    | none => exact absurd hg (hsess rfl)
    | some d => simp [DebugHandler.request?, hg]
  | TerminateSession =>
    cases hg : g.gameServerSession with
    | none => exact absurd hg (hsess rfl)
    | some d => simp [DebugHandler.request?, hg]
  | UpdatePlayerSessionCreationPolicy =>
    cases hg : g.gameServerSession with
    | none => exact absurd hg (hsess rfl)
    | some d => simp [DebugHandler.request?, hg]

/-- The value `Get` returns for an absent parameter is the empty string. -/
theorem Query.Get_of_absent {q : Query} {key : String} (h : q.Absent key) : q.Get key = "" := by
  unfold Query.Get
  have : q.find? (fun p => decide (p.1 = key)) = none := by
    rw [List.find?_eq_none]
    intro p hp
    simpa using h p hp
  rw [this]

theorem atoiFast_digits {ds : List Char} {n m : Nat} (h : atoiFast ds n = some m) :
    ∀ c ∈ ds, '0' ≤ c ∧ c ≤ '9' := by
  induction ds generalizing n with
  | nil => intro c hc; cases hc
  | cons d ds ih =>
    unfold atoiFast at h
    by_cases hd : '0' ≤ d ∧ d ≤ '9'
    · rw [if_pos hd] at h
      intro c hc
      rcases List.mem_cons.1 hc with rfl | hc
      · exact hd
      · exact ih h c hc
    · rw [if_neg hd] at h
      cases h

/-- The loop of `ParseUint` ends without error only on digits, and with `2^64 - 1` on a
range error. -/
theorem parseUintLoop_spec {ds : List Char} {n m : Nat} {e : Option NumError}
    (h : parseUintLoop ds n = (m, e)) :
    (e = none → ∀ c ∈ ds, '0' ≤ c ∧ c ≤ '9') ∧ (e = some .outOfRange → m = 2 ^ 64 - 1) := by
  induction ds generalizing n with
  | nil =>
    simp only [parseUintLoop, Prod.mk.injEq] at h
    refine ⟨fun _ c hc => (by cases hc), fun he => ?_⟩
    rw [← h.2] at he
    cases he
  | cons d ds ih =>
    unfold parseUintLoop at h
    by_cases hd : '0' ≤ d ∧ d ≤ '9'
    · rw [if_pos hd] at h
      split_ifs at h with h1 h2
      · simp only [Prod.mk.injEq] at h
        exact ⟨fun he => (by rw [← h.2] at he; cases he), fun _ => h.1.symm⟩
      · simp only [Prod.mk.injEq] at h
        exact ⟨fun he => (by rw [← h.2] at he; cases he), fun _ => h.1.symm⟩
      · obtain ⟨ih1, ih2⟩ := ih h
        refine ⟨fun he c hc => ?_, ih2⟩
        rcases List.mem_cons.1 hc with rfl | hc
        · exact hd
        · exact ih1 he c hc
    · rw [if_neg hd] at h
      simp only [Prod.mk.injEq] at h
      exact ⟨fun he => (by rw [← h.2] at he; cases he),
        fun he => (by rw [← h.2] at he; cases he)⟩

/-- The function `ParseInt` returns without error only on an optional sign followed by a
non-empty run of digits. -/
theorem ParseInt_ok {s : List Char} (h : (ParseInt s).2 = none) :
    ∃ ds : List Char, ds ≠ [] ∧ (∀ c ∈ ds, '0' ≤ c ∧ c ≤ '9') ∧
      (s = ds ∨ s = '+' :: ds ∨ s = '-' :: ds) := by
  cases s with
  | nil => simp [ParseInt] at h
  | cons c cs =>
    simp only [ParseInt] at h
    have hshape : (c :: cs = (if c = '+' ∨ c = '-' then cs else c :: cs)) ∨
        c :: cs = '+' :: (if c = '+' ∨ c = '-' then cs else c :: cs) ∨
        c :: cs = '-' :: (if c = '+' ∨ c = '-' then cs else c :: cs) := by
      by_cases hp : c = '+'
      · subst hp; simp
      · by_cases hm : c = '-'
        · subst hm; simp
        · simp [hp, hm]
    generalize (if c = '+' ∨ c = '-' then cs else c :: cs) = ds at h hshape
    cases hu : ParseUint ds with
    | mk un e =>
      rw [hu] at h
      have hne : ds ≠ [] := by
        intro hd
        subst hd
        simp only [ParseUint, List.isEmpty_nil, if_true, Prod.mk.injEq] at hu
        rw [← hu.2] at h
        simp at h
      have hloop : parseUintLoop ds 0 = (un, e) := by
        unfold ParseUint at hu
        rw [if_neg (by simpa using hne)] at hu
        exact hu
      obtain ⟨hdig, hrange⟩ := parseUintLoop_spec hloop
      cases e with
      | none => exact ⟨ds, hne, hdig rfl, hshape⟩
      | some err =>
        cases err with
        | invalid => simp at h
        | outOfRange =>
          have hun := hrange rfl
          subst hun
          simp only at h
          by_cases hneg : c = '-'
          · simp [hneg] at h
          · simp [hneg] at h

/-- Function `Atoi` returns an error on every string that is not an integer in decimal. -/
theorem Atoi_err_of_not_integer {s : String} (h : ¬ IsInteger s) : (Atoi s).2 = true := by
  by_contra hne
  apply h
  unfold Atoi at hne
  by_cases hlen : 0 < s.utf8ByteSize ∧ s.utf8ByteSize < 19
  · rw [if_pos hlen] at hne
    cases hs : s.data with
    | nil => simp [hs] at hne
    | cons c cs =>
      simp only [hs] at hne
      by_cases hd : (if c = '-' ∨ c = '+' then cs else c :: cs).isEmpty = true
      · simp [hd] at hne
      · rw [if_neg hd] at hne
        cases hf : atoiFast (if c = '-' ∨ c = '+' then cs else c :: cs) 0 with
        | none => simp [hf] at hne
        | some n =>
          refine ⟨if c = '-' ∨ c = '+' then cs else c :: cs, by simpa using hd,
            atoiFast_digits hf, ?_⟩
          rw [hs]
          by_cases hm : c = '-'
          · subst hm; simp
          · by_cases hp : c = '+'
            · subst hp; simp
            · simp [hm, hp]
  · rw [if_neg hlen] at hne
    apply ParseInt_ok
    cases hr : (ParseInt s.data).2 with
    | none => rfl
    | some e => simp [hr] at hne

theorem Atoi_empty : Atoi "" = (0, true) := by decide

/-- The function `Atoi` by evaluation: plain numbers, the ends of the `int64` range, syntax
errors, and a range error that is met before a character that is not a digit. -/
theorem Atoi_examples :
    Atoi "4312" = (4312, false) ∧ Atoi "-17" = (-17, false) ∧ Atoi "+5" = (5, false) ∧
    Atoi "0" = (0, false) ∧ Atoi "12x" = (0, true) ∧ Atoi "-" = (0, true) ∧
    Atoi "9223372036854775807" = (9223372036854775807, false) ∧
    Atoi "9223372036854775808" = (9223372036854775807, true) ∧
    Atoi "-9223372036854775808" = (-9223372036854775808, false) ∧
    Atoi "-9223372036854775809" = (-9223372036854775808, true) ∧
    Atoi "99999999999999999999x" = (9223372036854775807, true) ∧
    Atoi "-99999999999999999999x" = (-9223372036854775808, true) ∧
    Atoi "1234567890123456789x" = (0, true) := by
  refine ⟨?_, ?_, ?_, ?_, ?_, ?_, ?_, ?_, ?_, ?_, ?_, ?_, ?_⟩ <;> decide


/-- No debug handler other than `SetHealthStatus` touches the callback service. -/
theorem DebugHandler.serve_rpcServerIns (h : DebugHandler) (agent : Agent) (w : World)
    (q : Query) (hh : h ≠ .SetHealthStatus) :
    (h.serve agent w q).world.rpcServerIns = w.rpcServerIns := by
  have hg := GetGseManager_rpcServerIns w
  cases h with
  | Login =>
    simp only [DebugHandler.serve, httpProcess.Login]
    repeat' split
    all_goals simp [Outcome.world, hg]
  | LoginOut =>
    simp only [DebugHandler.serve, httpProcess.LoginOut]
    repeat' split
    all_goals simp [Outcome.world, hg]
  | TerminateSession =>
    simp only [DebugHandler.serve, httpProcess.TerminateSession]
    repeat' split
    all_goals simp [Outcome.world, hg]
  | EndProcess =>
    simp only [DebugHandler.serve, httpProcess.EndProcess]
    repeat' split
    all_goals simp [Outcome.world, hg]
  | DescribePlayerSessions =>
    simp only [DebugHandler.serve, httpProcess.DescribePlayerSessions]
    repeat' split
    all_goals simp [Outcome.world, hg]
  | UpdatePlayerSessionCreationPolicy =>
    simp only [DebugHandler.serve, httpProcess.UpdatePlayerSessionCreationPolicy]
    repeat' split
    all_goals simp [Outcome.world, hg]
  | ReportCustomData =>
    simp only [DebugHandler.serve, httpProcess.ReportCustomData]
    repeat' split
    all_goals simp [Outcome.world, hg]
  | SetHealthStatus => exact absurd rfl hh
  | HelloWorld => rfl

/-- No operation other than a set-health-status command touches the callback service. -/
theorem Op.step_rpcServerIns (agent : Agent) (track : Bool) (w : World) (op : Op)
    (hop : op.isSetHealth = false) :
    (op.step agent track w).1.rpcServerIns = w.rpcServerIns := by
  have hg := GetGseManager_rpcServerIns w
  cases op with
  | OnHealthCheck =>
    simp only [Op.step, rpcService.OnHealthCheck]
    repeat' split
    all_goals simp [Outcome.world]
  | OnStartGameServerSession req =>
    simp only [Op.step, rpcService.OnStartGameServerSession, World.setManager]
    repeat' split
    all_goals simp [Outcome.world, hg]
  | OnProcessTerminate req =>
    simp only [Op.step, rpcService.OnProcessTerminate, World.setManager]
    repeat' split
    all_goals simp [Outcome.world, hg]
  | SetHealthStatus b => simp [Op.isSetHealth] at hop
  | debug h q =>
    have hh : h ≠ .SetHealthStatus := by
      rintro rfl
      simp [Op.isSetHealth] at hop
    exact h.serve_rpcServerIns agent w q hh
  | logLine line => rfl

/-- A sequence without set-health-status commands leaves the callback service as it is. -/
theorem runOps_rpcServerIns (agent : Agent) (track : Bool) (w : World) (ops : List Op)
    (hops : ∀ op ∈ ops, op.isSetHealth = false) :
    (runOps agent track w ops).rpcServerIns = w.rpcServerIns := by
  induction ops generalizing w with
  | nil => rfl
  | cons op ops ih =>
    have h1 := Op.step_rpcServerIns agent track w op (hops op (List.mem_cons_self _ _))
    unfold runOps
    cases hstep : op.step agent track w with
    | mk w1 alive =>
      rw [hstep] at h1
      cases alive with
      | true =>
        simp only
        rw [ih w1 (fun o ho => hops o (List.mem_cons_of_mem _ ho))]
        exact h1
      | false => exact h1

theorem agentCalls_append (a b : List Event) :
    agentCalls (a ++ b) = agentCalls a ++ agentCalls b := by
  simp [agentCalls, List.filterMap_append]

theorem agentCalls_written (l : List Output) : agentCalls (l.map Event.written) = [] := by
  induction l with
  | nil => rfl
  | cons a l ih => simp [agentCalls]

theorem openTail_agentCalls (f : Nat → Except String (List String)) (n i : Nat) :
    agentCalls (openTail f n i).1 = [] := by
  induction n generalizing i with
  | zero => rfl
  | succ n ih =>
    unfold openTail
    split
    · rfl
    · simpa [agentCalls] using ih (i + 1)

/-- The part of `main` after the readiness report sends nothing and leaves the state. -/
theorem afterReady_quiet (env : Env) (w : World) :
    agentCalls (afterReady env w).trace = [] ∧ (afterReady env w).world = w := by
  unfold afterReady
  cases hh : env.userHomeDir with
  | error err => exact ⟨rfl, rfl⟩
  | ok home =>
    have hq := openTail_agentCalls (env.tailFile home) 10 0
    cases ho : openTail (env.tailFile home) 10 0 with
    | mk tr r =>
      rw [ho] at hq
      cases r with
      | none =>
        simp only [ho]
        exact ⟨by simpa [agentCalls] using hq, trivial⟩
      | some lines =>
        simp only [ho]
        refine ⟨?_, tailLoop_world _ _ _⟩
        simp only [List.cons_append, agentCalls_append, agentCalls_written, List.append_nil]
        simpa [agentCalls] using hq

/-- The readiness report of `main`: one message, then the call ProcessReady, then events
without any call; the call is recorded as sent. -/
theorem reportReady_shape (agent : Agent) (env : Env) (clientPort grpcPort : Int) (w : World) :
    ∃ B, (reportReady agent env clientPort grpcPort w).trace
        = .written (.log "Connecting to Gse with the SDK") ::
          .agentCall ⟨w.manager.pid, .ProcessReady ["/local/game/log/log.txt"]
            (int32 clientPort) (int32 grpcPort)⟩ :: B ∧
      agentCalls B = [] ∧
      (reportReady agent env clientPort grpcPort w).world.sent
        = w.sent ++ [⟨w.manager.pid, .ProcessReady ["/local/game/log/log.txt"]
            (int32 clientPort) (int32 grpcPort)⟩] := by
  have hs := GetGseManager_sent w
  unfold reportReady
  simp only [gsemanager.ProcessReady, gsemanager.invoke, World.manager]
  cases agent (GetGseManager w).2.sent ⟨(GetGseManager w).1.pid,
      .ProcessReady ["/local/game/log/log.txt"] (int32 clientPort) (int32 grpcPort)⟩ with
  | error e =>
    exact ⟨[.written (.log "processready fail")], rfl, rfl, by simp [loggerFatal, hs]⟩
  | ok p =>
    refine ⟨_, rfl, (afterReady_quiet env _).1, ?_⟩
    simp only [(afterReady_quiet env _).2, hs]

theorem GetRpcService_frame (w : World) :
    (GetRpcService w).2.sent = w.sent ∧ (GetRpcService w).2.gseManagerIns = w.gseManagerIns ∧
      (GetRpcService w).2.osPid = w.osPid := by
  unfold GetRpcService
  split <;> exact ⟨rfl, rfl, rfl⟩

/-- With the callback listener bound, its port read and the game server started, `main`
reaches the readiness report: its events are the listener, the server, events without a
call, the call ProcessReady, and events without a call. -/
theorem main_ready (agent : Agent) (env : Env) (w : World) (addr : String) (port : Int)
    (hl : env.listen = .ok addr) (hp : listenerPort addr = some (port, false))
    (hc : env.cmdStart = none) :
    ∃ A B, (main agent env w).trace
        = .grpcListen addr :: .grpcServe :: A ++
          .agentCall ⟨w.manager.pid, .ProcessReady ["/local/game/log/log.txt"]
            (int32 (20000 + env.randIntn : Nat)) (int32 port)⟩ :: B ∧
      agentCalls A = [] ∧ agentCalls B = [] ∧
      (main agent env w).world.sent
        = w.sent ++ [⟨w.manager.pid, .ProcessReady ["/local/game/log/log.txt"]
            (int32 (20000 + env.randIntn : Nat)) (int32 port)⟩] := by
  obtain ⟨hs, hg, ho⟩ := GetRpcService_frame w
  have hm : World.manager ⟨(GetRpcService w).2.osPid, (GetRpcService w).2.gseManagerIns,
      some ⟨(GetRpcService w).1.healthStatus, port⟩, (GetRpcService w).2.sent⟩
      = w.manager := by
    simp only [World.manager, GetGseManager, hg, ho]
    cases w.gseManagerIns <;> rfl
  obtain ⟨B, hB, hBq, hBs⟩ := reportReady_shape agent env (20000 + env.randIntn : Nat) port
    ⟨(GetRpcService w).2.osPid, (GetRpcService w).2.gseManagerIns,
      some ⟨(GetRpcService w).1.healthStatus, port⟩, (GetRpcService w).2.sent⟩
  rw [hm] at hB hBs
  simp only [main, startGrpcServer, hl, hp, hc, Bool.false_eq_true, if_false]
  generalize List.map String.mk (List.splitOn ' ' env.input.data) = parts
  cases parts with
  | nil =>
    simp only [List.nil_append, List.cons_append, hB]
    exact ⟨[_, _, _, _], B, rfl, rfl, hBq, by rw [hBs]; simp only [hs]⟩
  | cons c cs =>
    simp only [List.nil_append, List.cons_append, hB]
    exact ⟨[_, _, _, _], B, rfl, rfl, hBq, by rw [hBs]; simp only [hs]⟩

/-- When the callback listener cannot be bound, its port cannot be read, or the game server
cannot be started, `main` ends without any call to the agent. -/
theorem main_not_ready (agent : Agent) (env : Env) (w : World)
    (h : ∀ addr port, env.listen = .ok addr → listenerPort addr = some (port, false) →
      env.cmdStart = none → False) :
    agentCalls (main agent env w).trace = [] ∧ (main agent env w).world.sent = w.sent := by
  obtain ⟨hs, _, _⟩ := GetRpcService_frame w
  cases hl : env.listen with
  | error e => simp [main, startGrpcServer, hl, loggerFatal, agentCalls, hs]
  | ok addr =>
    cases hp : listenerPort addr with
    | none => simp [main, startGrpcServer, hl, hp, agentCalls, hs]
    | some pe =>
      obtain ⟨port, err⟩ := pe
      cases err with
      | true => simp [main, startGrpcServer, hl, hp, loggerFatal, agentCalls, hs]
      | false =>
        cases hc : env.cmdStart with
        | none => exact absurd hc (fun hc => h addr port hl hp hc)
        | some e =>
          simp only [main, startGrpcServer, hl, hp, hc, Bool.false_eq_true, if_false]
          generalize List.map String.mk (List.splitOn ' ' env.input.data) = parts
          cases parts <;> simp [agentCalls, hs]

/-- A trace with a single call splits around a call in one way only. -/
theorem agentCall_split_unique {A B pre post : List Event} {c o : Outbound}
    (hA : agentCalls A = []) (hB : agentCalls B = [])
    (h : A ++ .agentCall c :: B = pre ++ .agentCall o :: post) :
    pre = A ∧ o = c ∧ post = B := by
  induction A generalizing pre with
  | nil =>
    cases pre with
    | nil =>
      simp only [List.nil_append, List.cons.injEq, Event.agentCall.injEq] at h
      exact ⟨rfl, h.1.symm, h.2.symm⟩
    | cons x pre =>
      simp only [List.nil_append, List.cons_append, List.cons.injEq] at h
      rw [h.2, agentCalls_append] at hB
      simp [agentCalls] at hB
  | cons a A ih =>
    cases pre with
    | nil =>
      simp only [List.nil_append, List.cons_append, List.cons.injEq] at h
      rw [h.1] at hA
      simp [agentCalls] at hA
    | cons x pre =>
      simp only [List.cons_append, List.cons.injEq] at h
      have hA1 : agentCalls A = [] := by
        cases a <;> simp_all [agentCalls]
      obtain ⟨h1, h2, h3⟩ := ih hA1 h.2
      exact ⟨by rw [h.1, h1], h2, h3⟩

/-- A trace without calls does not split around a call. -/
theorem agentCalls_nil_no_split {tr pre post : List Event} {o : Outbound}
    (h : agentCalls tr = []) : tr ≠ pre ++ .agentCall o :: post := by
  intro he
  rw [he, agentCalls_append] at h
  simp [agentCalls] at h

/-- The limit that `DescribePlayerSessions` forwards, by evaluation: a number, 0 for a value
that is no number, and `int32` of the largest `int64`, which is -1, after a range error. -/
theorem DescribePlayerSessions_limit_example :
    (httpProcess.DescribePlayerSessions (fun _ _ => .ok "") ⟨"1", none, none, []⟩
      [("limit", "25")]).world.sent
      = [⟨"1", .DescribePlayerSessions "" "" "" "" "" 25⟩] ∧
    (httpProcess.DescribePlayerSessions (fun _ _ => .ok "") ⟨"1", none, none, []⟩
      [("limit", "many")]).world.sent
      = [⟨"1", .DescribePlayerSessions "" "" "" "" "" 0⟩] ∧
    (httpProcess.DescribePlayerSessions (fun _ _ => .ok "") ⟨"1", none, none, []⟩
      [("limit", "99999999999999999999x")]).world.sent
      = [⟨"1", .DescribePlayerSessions "" "" "" "" "" (-1)⟩] := by
  refine ⟨?_, ?_, ?_⟩ <;> decide

/-- Claim C1: `handleLogLine` never fails, and it returns the event of the first pattern that
matches the line in the order serverStart (READY), playerJoin (PLAYERJOIN, with the text of
the group), playerLeave (PLAYERLEAVE, with the text of the group), noMorePlayers (SHUTDOWN);
the empty action with a nil player is returned exactly when none of the four matches. -/
theorem handleLogLine_first_match (line : String) :
    ∃ res, handleLogLine line = some res ∧
      (serverStart.Matches line.data → res.action = "READY" ∧ res.player = none) ∧
      (¬ serverStart.Matches line.data → playerJoin.Matches line.data →
        res.action = "PLAYERJOIN" ∧ res.player.isSome = true ∧
          res.player = (playerJoin.FindSubmatch line).get? 1) ∧
      (¬ serverStart.Matches line.data → ¬ playerJoin.Matches line.data →
        playerLeave.Matches line.data →
        res.action = "PLAYERLEAVE" ∧ res.player.isSome = true ∧
          res.player = (playerLeave.FindSubmatch line).get? 1) ∧
      (¬ serverStart.Matches line.data → ¬ playerJoin.Matches line.data →
        ¬ playerLeave.Matches line.data → noMorePlayers.Matches line.data →
        res.action = "SHUTDOWN" ∧ res.player = none) ∧
      ((res.action = "" ∧ res.player = none) ↔
        (¬ serverStart.Matches line.data ∧ ¬ playerJoin.Matches line.data ∧
          ¬ playerLeave.Matches line.data ∧ ¬ noMorePlayers.Matches line.data)) := by
  simp only [← Regexp.MatchString_iff serverStart_WF, ← Regexp.MatchString_iff playerJoin_WF,
    ← Regexp.MatchString_iff playerLeave_WF, ← Regexp.MatchString_iff noMorePlayers_WF]
  unfold handleLogLine
  by_cases h1 : serverStart.MatchString line = true
  · exact ⟨_, if_pos h1, by simp [h1]⟩
  rw [if_neg h1]
  by_cases h2 : playerJoin.MatchString line = true
  · obtain ⟨start, u, _, hg⟩ := Regexp.FindSubmatch_get_one (r := playerJoin) rfl h2
    rw [if_pos h2, hg]
    exact ⟨_, rfl, by simp [h1, h2]⟩
  rw [if_neg h2]
  by_cases h3 : playerLeave.MatchString line = true
  · obtain ⟨start, u, _, hg⟩ := Regexp.FindSubmatch_get_one (r := playerLeave) rfl h3
    rw [if_pos h3, hg]
    exact ⟨_, rfl, by simp [h1, h2, h3]⟩
  rw [if_neg h3]
  by_cases h4 : noMorePlayers.MatchString line = true
  · exact ⟨_, if_pos h4, by simp [h1, h2, h3, h4]⟩
  · exact ⟨_, if_neg h4, by simp [h1, h2, h3, h4]⟩

/-- The spec's scenarios, by evaluation. -/
theorem handleLogLine_scenarios :
    handleLogLine "Listening has been started" = some ⟨["server ready"], "READY", none⟩ ∧
    handleLogLine "ServerLobby: New player Alice with online id 3"
      = some ⟨["Player Alice joined\n"], "PLAYERJOIN", some "Alice"⟩ ∧
    handleLogLine "ServerLobby: Alice disconnected"
      = some ⟨["Player Alice disconnected"], "PLAYERLEAVE", some "Alice"⟩ ∧
    handleLogLine "STKHost: Alice has left. There are now 0 peers."
      = some ⟨["server has no more players. shutting down"], "SHUTDOWN", none⟩ ∧
    handleLogLine "ServerLobby: New player a with online id 1 with online id 22"
      = some ⟨["Player a with online id 1 joined\n"], "PLAYERJOIN",
          some "a with online id 1"⟩ := by
  refine ⟨?_, ?_, ?_, ?_, ?_⟩ <;> decide

/-- Witness for claim C1 on the line `Listening has been started`. -/
theorem handleLogLine_first_match_witness :
    ∃ res, handleLogLine "Listening has been started" = some res ∧
      res.action = "READY" ∧ res.player = none := by
  obtain ⟨res, h, hready, _⟩ := handleLogLine_first_match "Listening has been started"
  exact ⟨res, h, hready ((Regexp.MatchString_iff serverStart_WF _).1 (by decide))⟩

set_option maxRecDepth 100000 in
/-- Claim C2, as stated, fails: this line matches the join pattern (the player is called
`Listening has been started`), and `handleLogLine` returns READY with no player, because the
serverStart pattern is tried first. -/
theorem join_line_classified_ready :
    playerJoin.Matches
      "ServerLobby: New player Listening has been started with online id 3".data ∧
    handleLogLine "ServerLobby: New player Listening has been started with online id 3"
      = some ⟨["server ready"], "READY", none⟩ :=
  ⟨(Regexp.MatchString_iff playerJoin_WF _).1 (by decide), by decide⟩

/-- Claim C2, amended: for every line that matches the join pattern and does not match the
serverStart pattern, `handleLogLine` returns PLAYERJOIN, and the returned name is the text of
the pattern's group in the match `FindSubmatch` selects, which is the leftmost occurrence with
the longest name (`IsJoinCapture`). -/
theorem handleLogLine_join_capture (line : String)
    (hj : playerJoin.Matches line.data) (hs : ¬ serverStart.Matches line.data) :
    ∃ name : String,
      handleLogLine line
        = some ⟨["Player " ++ name ++ " joined\n"], "PLAYERJOIN", some name⟩ ∧
      (playerJoin.FindSubmatch line).get? 1 = some name ∧
      IsJoinCapture line.data name.data := by
  have h1 : ¬ serverStart.MatchString line = true :=
    fun h => hs ((Regexp.MatchString_iff serverStart_WF line).1 h)
  have h2 : playerJoin.MatchString line = true :=
    (Regexp.MatchString_iff playerJoin_WF line).2 hj
  obtain ⟨start, u, hsearch, hg⟩ := Regexp.FindSubmatch_get_one (r := playerJoin) rfl h2
  refine ⟨String.mk (u.cap.getD []), ?_, hg, playerJoin_search hsearch⟩
  unfold handleLogLine
  rw [if_neg h1, if_pos h2, hg]

/-- Witness for the amended claim C2 on the spec's scenario line. -/
theorem handleLogLine_join_capture_witness :
    playerJoin.Matches "ServerLobby: New player Alice with online id 3".data ∧
    ¬ serverStart.Matches "ServerLobby: New player Alice with online id 3".data ∧
    ∃ name : String,
      handleLogLine "ServerLobby: New player Alice with online id 3"
        = some ⟨["Player " ++ name ++ " joined\n"], "PLAYERJOIN", some name⟩ ∧
      (playerJoin.FindSubmatch "ServerLobby: New player Alice with online id 3").get? 1
        = some name ∧
      IsJoinCapture "ServerLobby: New player Alice with online id 3".data name.data :=
  have hj := (Regexp.MatchString_iff playerJoin_WF
    "ServerLobby: New player Alice with online id 3").1 (by decide)
  have hs : ¬ serverStart.Matches "ServerLobby: New player Alice with online id 3".data :=
    fun h => absurd ((Regexp.MatchString_iff serverStart_WF _).2 h) (by decide)
  ⟨hj, hs, handleLogLine_join_capture _ hj hs⟩

/-- Claim C3: in every process state `w` (with or without a session) and for every finite
sequence of lines, the tail loop exits with code 0 at the first line classified as SHUTDOWN:
the state is not touched, the result does not depend on the state or on the later lines, and
"tail ended" is not logged. If no line is classified as SHUTDOWN the loop ends by logging
"tail ended" and exiting with code 1. -/
theorem tailLoop_shutdown_or_fatal (track : Bool) (w : World) (lines : List String) :
    (∀ pre l post, lines = pre ++ l :: post →
      (∀ x ∈ pre, classifiedShutdown x = false) → classifiedShutdown l = true →
      (tailLoop track w lines).exit = .code 0 ∧
      (tailLoop track w lines).world = w ∧
      (∀ post1, tailLoop track w (pre ++ l :: post1) = tailLoop track w lines) ∧
      (∀ w1, (tailLoop track w1 lines).out = (tailLoop track w lines).out ∧
        (tailLoop track w1 lines).exit = (tailLoop track w lines).exit)) ∧
    ((∀ x ∈ lines, classifiedShutdown x = false) →
      (tailLoop track w lines).exit = .code 1 ∧
      (tailLoop track w lines).out.getLast? = some (.log "tail ended") ∧
      (tailLoop track w lines).world = w) := by
  constructor
  · intro pre l post e hpre hl
    have hb : (tailBody track l).2 = some (.code 0) := by rw [tailBody_exit, hl]; rfl
    have hstop : ∀ r, tailLoop track w (l :: r) = ⟨(tailBody track l).1, .code 0, w⟩ := by
      intro r
      rw [tailLoop]
      cases hbb : tailBody track l with
      | mk o e =>
        rw [hbb] at hb
        simp only at hb
        subst hb
        rfl
    obtain ⟨hexit, out, hout, hall⟩ := tailLoop_append track w pre (l :: post) hpre
    subst e
    refine ⟨by rw [hexit, hstop], tailLoop_world _ _ _, ?_, fun w1 => tailLoop_indep _ _ _ _⟩
    intro post1
    have h1 := tailLoop_append track w pre (l :: post1) hpre
    have e1 : ∀ a b : TailResult, a.out = b.out → a.exit = b.exit → a.world = b.world → a = b := by
      intro a b h1 h2 h3
      cases a; cases b; simp_all
    apply e1
    · rw [hall (l :: post1), hall (l :: post), hstop, hstop]
    · rw [h1.1, hexit, hstop, hstop]
    · rw [tailLoop_world, tailLoop_world]
  · intro hall
    obtain ⟨hexit, out, hout, _⟩ := tailLoop_append track w lines [] hall
    rw [List.append_nil] at hexit hout
    refine ⟨by rw [hexit]; rfl, ?_, tailLoop_world _ _ _⟩
    rw [hout]
    simp [tailLoop]

/-- Witness for claim C3: three lines, the second one being the spec's shutdown line. -/
theorem tailLoop_shutdown_or_fatal_witness :
    (tailLoop false ⟨"1", none, none, []⟩
      ["Listening has been started", "STKHost: ... There are now 0 peers.",
        "ServerLobby: Alice disconnected"]).exit = .code 0 ∧
    (tailLoop false ⟨"1", none, none, []⟩ ["Listening has been started"]).exit = .code 1 :=
  ⟨((tailLoop_shutdown_or_fatal false ⟨"1", none, none, []⟩
      ["Listening has been started", "STKHost: ... There are now 0 peers.",
        "ServerLobby: Alice disconnected"]).1
      ["Listening has been started"] "STKHost: ... There are now 0 peers."
      ["ServerLobby: Alice disconnected"] rfl (by decide) (by decide)).1,
   ((tailLoop_shutdown_or_fatal false ⟨"1", none, none, []⟩
      ["Listening has been started"]).2 (by decide)).1⟩

/-- Claim C4 fails on the code: with no session (`gameServerSession` nil) each of the four
session-scoped methods panics on the nil pointer, for every argument, before anything is sent;
none of them returns an error. The debug handler `Login` on a valid request passes the panic
on and writes no envelope, and the callback `OnProcessTerminate` panics after it has stored
the deadline. -/
theorem session_ops_panic_without_session (agent : Agent) (pid : String) (t : Int)
    (sent : List Outbound) (arg : String) :
    (⟨pid, none, t⟩ : gsemanager).AcceptPlayerSession agent sent arg = none ∧
    (⟨pid, none, t⟩ : gsemanager).RemovePlayerSession agent sent arg = none ∧
    (⟨pid, none, t⟩ : gsemanager).TerminateGameServerSession agent sent = none ∧
    (⟨pid, none, t⟩ : gsemanager).UpdatePlayerSessionCreationPolicy agent sent arg = none ∧
    httpProcess.Login agent ⟨pid, none, none, sent⟩ [("playerSessionId", "p1")]
      = .panicked ⟨pid, some ⟨pid, none, 0⟩, none, sent⟩ ∧
    rpcService.OnProcessTerminate agent ⟨pid, none, some ⟨true, 0⟩, sent⟩ ⟨t⟩
      = .panicked ⟨pid, some ⟨pid, none, t⟩, some ⟨true, 0⟩, sent⟩ :=
  ⟨rfl, rfl, rfl, rfl, rfl, rfl⟩

/-- Claim C5, as stated, fails: with a session started and an agent that accepts every call,
after `OnProcessTerminate(1)` and then `OnProcessTerminate(2)` the termination time is 2,
whereas after `OnProcessTerminate(1)` alone it is 1. -/
theorem second_terminate_overwrites :
    ((rpcService.OnProcessTerminate (fun _ _ => .ok "")
        (rpcService.OnProcessTerminate (fun _ _ => .ok "")
          ⟨"1", some ⟨"1", some ⟨"s", 4⟩, 0⟩, some ⟨true, 0⟩, []⟩ ⟨1⟩).world ⟨2⟩).world.manager
      = ⟨"1", some ⟨"s", 4⟩, 2⟩) ∧
    ((rpcService.OnProcessTerminate (fun _ _ => .ok "")
        ⟨"1", some ⟨"1", some ⟨"s", 4⟩, 0⟩, some ⟨true, 0⟩, []⟩ ⟨1⟩).world.manager
      = ⟨"1", some ⟨"s", 4⟩, 1⟩) := by
  constructor <;> rfl

/-- Claim C5, amended: the termination deadline is overwritten by every call. While a session
exists both calls return, and after `OnProcessTerminate(t1)` followed by
`OnProcessTerminate(t2)` the manager is the one after `OnProcessTerminate(t2)` alone, with
termination time `t2`; it equals the manager after `OnProcessTerminate(t1)` alone exactly when
`t1 = t2`. -/
theorem OnProcessTerminate_twice (agent : Agent) (w : World) (d : GameServerSession)
    (t1 t2 : Int) (hd : w.manager.gameServerSession = some d) :
    ∃ w1 w2,
      rpcService.OnProcessTerminate agent w ⟨t1⟩ = .ret (⟨⟩, none) w1 ∧
      rpcService.OnProcessTerminate agent w1 ⟨t2⟩ = .ret (⟨⟩, none) w2 ∧
      w2.manager.terminationTime = t2 ∧
      w2.manager = (rpcService.OnProcessTerminate agent w ⟨t2⟩).world.manager ∧
      (w2.manager = w1.manager ↔ t1 = t2) := by
  have e1 := OnProcessTerminate_ret agent w d ⟨t1⟩ hd
  have e2' := OnProcessTerminate_ret agent w d ⟨t2⟩ hd
  have hd1 : (terminated w d ⟨t1⟩).manager.gameServerSession = some d := by
    simpa [terminated, World.manager, GetGseManager] using hd
  have e2 := OnProcessTerminate_ret agent (terminated w d ⟨t1⟩) d ⟨t2⟩ hd1
  refine ⟨_, _, e1, e2, ?_, ?_, ?_⟩
  · simp [terminated, World.manager, GetGseManager]
  · rw [e2']
    simp [terminated, World.manager, GetGseManager, Outcome.world]
  · simp only [terminated, World.manager, GetGseManager]
    constructor
    · intro h
      have := congrArg gsemanager.terminationTime h
      simpa using this.symm
    · rintro rfl
      rfl

/-- Witness for the amended claim C5. -/
theorem OnProcessTerminate_twice_witness :
    ∃ w1 w2,
      rpcService.OnProcessTerminate (fun _ _ => .ok "")
        ⟨"1", some ⟨"1", some ⟨"s", 4⟩, 0⟩, some ⟨true, 0⟩, []⟩ ⟨1⟩ = .ret (⟨⟩, none) w1 ∧
      rpcService.OnProcessTerminate (fun _ _ => .ok "") w1 ⟨2⟩ = .ret (⟨⟩, none) w2 ∧
      w2.manager.terminationTime = 2 ∧
      w2.manager = (rpcService.OnProcessTerminate (fun _ _ => .ok "")
        ⟨"1", some ⟨"1", some ⟨"s", 4⟩, 0⟩, some ⟨true, 0⟩, []⟩ ⟨2⟩).world.manager ∧
      (w2.manager = w1.manager ↔ (1 : Int) = 2) :=
  OnProcessTerminate_twice (fun _ _ => .ok "")
    ⟨"1", some ⟨"1", some ⟨"s", 4⟩, 0⟩, some ⟨true, 0⟩, []⟩ ⟨"s", 4⟩ 1 2 rfl

/-- Claim C6, as stated, fails: with a session started, `OnProcessTerminate` returns an
empty response and a nil error to its caller; it does not end by exiting the process. -/
theorem OnProcessTerminate_returns_response :
    (rpcService.OnProcessTerminate (fun _ _ => .ok "")
      ⟨"1", some ⟨"1", some ⟨"s", 4⟩, 0⟩, some ⟨true, 0⟩, []⟩ ⟨7⟩).value?
      = some (⟨⟩, none) := by
  rfl

/-- Claim C6, amended: for every ProcessTerminate request received while a session exists,
whatever the agent answers, `OnProcessTerminate` records the deadline of the request in the
manager, sends TerminateGameServerSession for the session and then ProcessEnding to the
agent, changes nothing else, and returns an empty response with a nil error to its caller. -/
theorem OnProcessTerminate_effect (agent : Agent) (w : World) (d : GameServerSession)
    (req : ProcessTerminateRequest) (hd : w.manager.gameServerSession = some d) :
    ∃ w1, rpcService.OnProcessTerminate agent w req = .ret (⟨⟩, none) w1 ∧
      w1.manager = { w.manager with terminationTime := req.TerminationTime } ∧
      w1.sent = w.sent ++ [⟨w.manager.pid, .TerminateGameServerSession d.GameServerSessionId⟩,
        ⟨w.manager.pid, .ProcessEnding⟩] ∧
      w1.rpcServerIns = w.rpcServerIns ∧ w1.osPid = w.osPid :=
  ⟨terminated w d req, OnProcessTerminate_ret agent w d req hd, rfl, rfl, rfl, rfl⟩

/-- Witness for the amended claim C6. -/
theorem OnProcessTerminate_effect_witness :
    ∃ w1, rpcService.OnProcessTerminate (fun _ _ => .error (.other "down"))
        ⟨"1", some ⟨"1", some ⟨"s", 4⟩, 0⟩, some ⟨true, 0⟩, []⟩ ⟨7⟩ = .ret (⟨⟩, none) w1 ∧
      w1.manager = ⟨"1", some ⟨"s", 4⟩, 7⟩ ∧
      w1.sent = [⟨"1", .TerminateGameServerSession "s"⟩, ⟨"1", .ProcessEnding⟩] ∧
      w1.rpcServerIns = some ⟨true, 0⟩ ∧ w1.osPid = "1" :=
  OnProcessTerminate_effect (fun _ _ => .error (.other "down"))
    ⟨"1", some ⟨"1", some ⟨"s", 4⟩, 0⟩, some ⟨true, 0⟩, []⟩ ⟨"s", 4⟩ ⟨7⟩ rfl

/-- Claim C7: for every StartGameServerSession request that carries a session `d`, every prior
state (no manager yet, no session, or a session already started) and every agent,
`OnStartGameServerSession` returns an empty response with a nil error; afterwards the
manager's session is `d`, its termination time and pid are as before, exactly one call has
been sent, ActivateGameServerSession with the id and maxPlayers of `d`, and nothing else has
changed. -/
theorem OnStartGameServerSession_effect (agent : Agent) (w : World) (d : GameServerSession) :
    ∃ w1, rpcService.OnStartGameServerSession agent w ⟨some d⟩ = .ret (⟨⟩, none) w1 ∧
      w1.manager.gameServerSession = some d ∧
      w1.manager.terminationTime = w.manager.terminationTime ∧
      w1.manager.pid = w.manager.pid ∧
      w1.sent = w.sent ++
        [⟨w.manager.pid, .ActivateGameServerSession d.GameServerSessionId d.MaxPlayers⟩] ∧
      w1.rpcServerIns = w.rpcServerIns ∧ w1.osPid = w.osPid :=
  ⟨started w d, OnStartGameServerSession_ret agent w d, rfl, rfl, rfl, rfl, rfl, rfl⟩

/-- Claim C8, as stated, fails: `Login` on a valid request while the session `s` exists, with
an agent that answers with a status error of code 4294967295 (a `codes.Code` is a `uint32`)
and message "gone", writes an envelope with code -1, which is not that status's code. -/
theorem envelope_code_is_converted :
    (DebugHandler.Login.serve (fun _ _ => .error (.status 4294967295 "gone"))
      ⟨"1", some ⟨"1", some ⟨"s", 4⟩, 0⟩, some ⟨true, 0⟩, []⟩
      [("playerSessionId", "p1")]).value? = some ⟨-1, "gone", none⟩ ∧
    (⟨-1, "gone", none⟩ : response) ≠ ⟨(4294967295 : Nat), "gone", none⟩ := by
  constructor
  · decide
  · decide

/-- Claim C8, amended: for each of the seven debug handlers that call the agent, on a request
that passes the handler's validation, while a session exists where the handler needs one:
the handler forwards exactly one request, the one its endpoint mirrors, with the manager's
pid, changes nothing else, and writes one envelope. The envelope is code 0 with message
"success" when the call succeeded; when the call fails with a status error it has the
status's message and the status's code converted to `int32`, which is the status's code for
every code below `2^31`; when it fails with another error it has code 500 and the error's
text. So the code is 0 exactly when the call succeeded or failed with a status whose code
converts to 0. -/
theorem debug_envelope_code (h : DebugHandler) (agent : Agent) (w : World) (q : Query)
    (hcalls : h.callsAgent = true) (hvalid : h.valid q = true)
    (hsess : h.needsSession = true → w.manager.gameServerSession ≠ none) :
    ∃ c env,
      h.request? w.manager q = some c ∧
      h.serve agent w q
        = .ret env { (GetGseManager w).2 with sent := w.sent ++ [⟨w.manager.pid, c⟩] } ∧
      (∀ p, agent w.sent ⟨w.manager.pid, c⟩ = .ok p →
        env = ⟨0, "success", if h = .DescribePlayerSessions then some p else none⟩) ∧
      (∀ code m, agent w.sent ⟨w.manager.pid, c⟩ = .error (.status code m) →
        env = ⟨int32 code, m, none⟩ ∧ (code < 2 ^ 31 → env.Code = code)) ∧
      (∀ t, agent w.sent ⟨w.manager.pid, c⟩ = .error (.other t) → env = ⟨500, t, none⟩) ∧
      (env.Code = 0 ↔
        ((∃ p, agent w.sent ⟨w.manager.pid, c⟩ = .ok p) ∨
          ∃ code m, agent w.sent ⟨w.manager.pid, c⟩ = .error (.status code m) ∧
            int32 code = 0)) := by
  obtain ⟨c, hc⟩ := h.request?_isSome w.manager q hcalls hsess
  refine ⟨c, _, hc, h.serve_forwarded agent w q c hvalid hc, ?_⟩
  cases hr : agent w.sent ⟨w.manager.pid, c⟩ with
  | ok p =>
    refine ⟨?_, ?_, ?_, ?_⟩
    · intro p1 hp1
      cases hp1
      rfl
    · intro code m he
      cases he
    · intro t he
      cases he
    · exact ⟨fun _ => Or.inl ⟨p, rfl⟩, fun _ => rfl⟩
  | error e =>
    cases e with
    | status code m =>
      refine ⟨?_, ?_, ?_, ?_⟩
      · intro p he
        cases he
      · intro code1 m1 he
        cases he
        refine ⟨rfl, fun hlt => ?_⟩
        exact int32_of_lt (by omega) (by exact_mod_cast hlt)
      · intro t he
        cases he
      · constructor
        · intro h0
          exact Or.inr ⟨code, m, rfl, h0⟩
        · rintro (⟨p, he⟩ | ⟨code1, m1, he, h0⟩)
          · cases he
          · cases he
            exact h0
    | other t =>
      refine ⟨?_, ?_, ?_, ?_⟩
      · intro p he
        cases he
      · intro code m he
        cases he
      · intro t1 he
        cases he
        rfl
      · constructor
        · intro h0
          simp [errResponse] at h0
        · rintro (⟨p, he⟩ | ⟨code1, m1, he, _⟩)
          · cases he
          · cases he

/-- Witness for the amended claim C8: `Login` for player session `p1` while the session `s`
exists, with an agent that answers every call with the status NotFound (code 5). -/
theorem debug_envelope_code_witness :
    ∃ c env,
      DebugHandler.Login.request? ⟨"1", some ⟨"s", 4⟩, 0⟩ [("playerSessionId", "p1")] = some c ∧
      DebugHandler.Login.serve (fun _ _ => .error (.status 5 "no such player session"))
          ⟨"1", some ⟨"1", some ⟨"s", 4⟩, 0⟩, some ⟨true, 0⟩, []⟩ [("playerSessionId", "p1")]
        = .ret env ⟨"1", some ⟨"1", some ⟨"s", 4⟩, 0⟩, some ⟨true, 0⟩, [⟨"1", c⟩]⟩ ∧
      env = ⟨5, "no such player session", none⟩ := by
  obtain ⟨c, env, h1, h2, _, h4, _⟩ :=
    debug_envelope_code .Login (fun _ _ => .error (.status 5 "no such player session"))
      ⟨"1", some ⟨"1", some ⟨"s", 4⟩, 0⟩, some ⟨true, 0⟩, []⟩ [("playerSessionId", "p1")]
      rfl (by decide) (fun _ => by decide)
  refine ⟨c, env, h1, h2, ?_⟩
  have h5 := (h4 5 "no such player session" rfl).1
  rw [h5]
  decide

/-- Claim C9: a debug request whose required parameter is missing or empty is rejected
locally. `Login` and `LoginOut` with an absent or empty playerSessionId, and
`ReportCustomData` with a currentCustomCount or maxCustomCount that is absent or not an
integer, write an envelope with code 400 and end in the state they started in: no call is
sent to the agent and the manager is unchanged. -/
theorem debug_invalid_rejected (agent : Agent) (w : World) (q : Query) :
    ((q.Absent "playerSessionId" ∨ q.Get "playerSessionId" = "") →
      httpProcess.Login agent w q = .ret ⟨400, "playerSessionId cant be empty", none⟩ w ∧
      httpProcess.LoginOut agent w q = .ret ⟨400, "playerSessionId cant be empty", none⟩ w) ∧
    ((q.Absent "currentCustomCount" ∨ ¬ IsInteger (q.Get "currentCustomCount") ∨
        q.Absent "maxCustomCount" ∨ ¬ IsInteger (q.Get "maxCustomCount")) →
      httpProcess.ReportCustomData agent w q
        = .ret ⟨400, "currentCustomCount 或者 maxCustomCount必须是整数", none⟩ w) := by
  constructor
  · intro h
    have he : q.Get "playerSessionId" = "" := by
      rcases h with h | h
      · exact Query.Get_of_absent h
      · exact h
    simp [httpProcess.Login, httpProcess.LoginOut, he]
  · intro h
    have he : (Atoi (q.Get "currentCustomCount")).2 = true
        ∨ (Atoi (q.Get "maxCustomCount")).2 = true := by
      rcases h with h | h | h | h
      · left; rw [Query.Get_of_absent h, Atoi_empty]
      · left; exact Atoi_err_of_not_integer h
      · right; rw [Query.Get_of_absent h, Atoi_empty]
      · right; exact Atoi_err_of_not_integer h
    unfold httpProcess.ReportCustomData
    simp only
    rw [if_pos (by simpa using he)]

/-- Witness for claim C9: a login request without parameters, and a report whose
maxCustomCount is not a number. -/
theorem debug_invalid_rejected_witness :
    httpProcess.Login (fun _ _ => .ok "") ⟨"1", none, none, []⟩ []
      = .ret ⟨400, "playerSessionId cant be empty", none⟩ ⟨"1", none, none, []⟩ ∧
    httpProcess.ReportCustomData (fun _ _ => .ok "") ⟨"1", none, none, []⟩
        [("currentCustomCount", "3"), ("maxCustomCount", "many")]
      = .ret ⟨400, "currentCustomCount 或者 maxCustomCount必须是整数", none⟩
          ⟨"1", none, none, []⟩ :=
  ⟨((debug_invalid_rejected (fun _ _ => .ok "") ⟨"1", none, none, []⟩ []).1
      (Or.inl (fun _ hp => absurd hp (List.not_mem_nil _)))).1,
   (debug_invalid_rejected (fun _ _ => .ok "") ⟨"1", none, none, []⟩
      [("currentCustomCount", "3"), ("maxCustomCount", "many")]).2
      (Or.inr (Or.inr (Or.inr (fun h => by
        obtain ⟨ds, _, hall, hd⟩ := h
        have hq : Query.Get [("currentCustomCount", "3"), ("maxCustomCount", "many")]
            "maxCustomCount" = "many" := by decide
        rw [hq] at hd
        have h1 : ("many".data).head? = some 'm' := by decide
        have hm : 'm' ∈ ds := by
          rcases hd with hd | hd | hd
          · rw [← hd]; decide
          · rw [hd, List.head?_cons, Option.some.injEq] at h1
            exact absurd h1 (by decide)
          · rw [hd, List.head?_cons, Option.some.injEq] at h1
            exact absurd h1 (by decide)
        exact absurd (hall _ hm).2 (by decide)))))⟩

/-- Claim C10: the callback service is constructed healthy; `OnHealthCheck` returns the
current flag with a nil error and leaves the state as it is; the two set-health-status
commands set the flag (the debug one to whether the number parsed from `healthStatus` is not
zero); and every sequence of other operations (callbacks, debug requests, log lines) leaves the
flag as it is, so that afterwards `OnHealthCheck` reports the value last set, or healthy if
none was set. -/
theorem health_flag_only_set_explicitly (agent : Agent) (track : Bool) :
    (∀ w, w.rpcServerIns = none → (GetRpcService w).1.healthStatus = true ∧
      (GetRpcService w).2.rpcServerIns = some (GetRpcService w).1) ∧
    (∀ w s, w.rpcServerIns = some s →
      rpcService.OnHealthCheck w = .ret (⟨s.healthStatus⟩, none) w) ∧
    (∀ w ops, (∀ op ∈ ops, op.isSetHealth = false) →
      reportedHealth (runOps agent track w ops) = reportedHealth w) ∧
    (∀ w ops, w.rpcServerIns = none → (∀ op ∈ ops, op.isSetHealth = false) →
      reportedHealth (runOps agent track (GetRpcService w).2 ops) = some true) ∧
    (∀ w s b ops, w.rpcServerIns = some s → (∀ op ∈ ops, op.isSetHealth = false) →
      reportedHealth (runOps agent track w (.SetHealthStatus b :: ops)) = some b) ∧
    (∀ w s q ops, w.rpcServerIns = some s → (∀ op ∈ ops, op.isSetHealth = false) →
      reportedHealth (runOps agent track w (.debug .SetHealthStatus q :: ops))
        = some (decide ((Atoi (q.Get "healthStatus")).1 ≠ 0))) := by
  have hrep : ∀ w w1 : World, w1.rpcServerIns = w.rpcServerIns →
      reportedHealth w1 = reportedHealth w := by
    intro w w1 h
    simp only [reportedHealth, rpcService.OnHealthCheck, h]
    cases w.rpcServerIns <;> rfl
  have hframe : ∀ w ops, (∀ op ∈ ops, op.isSetHealth = false) →
      reportedHealth (runOps agent track w ops) = reportedHealth w :=
    fun w ops hops => hrep _ _ (runOps_rpcServerIns agent track w ops hops)
  refine ⟨?_, ?_, hframe, ?_, ?_, ?_⟩
  · intro w hw
    simp [GetRpcService, hw]
  · intro w s hw
    simp [rpcService.OnHealthCheck, hw]
  · intro w ops hw hops
    rw [hframe _ _ hops]
    simp [reportedHealth, rpcService.OnHealthCheck, GetRpcService, hw, Outcome.value?]
  · intro w s b ops hw hops
    simp only [runOps, Op.step, rpcService.SetHealthStatus, hw, Outcome.value?, Outcome.world,
      Option.isSome_some]
    rw [hframe _ _ hops]
    simp [reportedHealth, rpcService.OnHealthCheck, Outcome.value?]
  · intro w s q ops hw hops
    simp only [runOps, Op.step, DebugHandler.serve, httpProcess.SetHealthStatus, hw,
      Outcome.world]
    rw [hframe _ _ hops]
    simp [reportedHealth, rpcService.OnHealthCheck, Outcome.value?]

/-- Witness for claim C10: a service constructed in a fresh process, then a session start, a
login and a log line; the same after the flag was set to unhealthy; and the debug command:
`healthStatus=0` and a value that is no number set the flag to unhealthy, and a value on
which `Atoi` returns a range error with the largest `int64` sets it to healthy. -/
theorem health_flag_only_set_explicitly_witness :
    reportedHealth (runOps (fun _ _ => .ok "") false
      (GetRpcService ⟨"1", none, none, []⟩).2
      [.OnStartGameServerSession ⟨some ⟨"s", 4⟩⟩, .debug .Login [("playerSessionId", "p1")],
        .logLine "Listening has been started"]) = some true ∧
    reportedHealth (runOps (fun _ _ => .ok "") false ⟨"1", none, some ⟨true, 0⟩, []⟩
      [.SetHealthStatus false, .OnStartGameServerSession ⟨some ⟨"s", 4⟩⟩,
        .debug .Login [("playerSessionId", "p1")]]) = some false ∧
    reportedHealth (runOps (fun _ _ => .ok "") false ⟨"1", none, some ⟨true, 0⟩, []⟩
      [.debug .SetHealthStatus [("healthStatus", "0")], .OnHealthCheck]) = some false ∧
    reportedHealth (runOps (fun _ _ => .ok "") false ⟨"1", none, some ⟨true, 0⟩, []⟩
      [.debug .SetHealthStatus [("healthStatus", "yes")], .OnHealthCheck]) = some false ∧
    reportedHealth (runOps (fun _ _ => .ok "") false ⟨"1", none, some ⟨false, 0⟩, []⟩
      [.debug .SetHealthStatus [("healthStatus", "99999999999999999999x")],
        .OnHealthCheck]) = some true :=
  ⟨(health_flag_only_set_explicitly (fun _ _ => .ok "") false).2.2.2.1
      ⟨"1", none, none, []⟩ _ rfl (by decide),
   (health_flag_only_set_explicitly (fun _ _ => .ok "") false).2.2.2.2.1
      ⟨"1", none, some ⟨true, 0⟩, []⟩ ⟨true, 0⟩ false _ rfl (by decide),
   ((health_flag_only_set_explicitly (fun _ _ => .ok "") false).2.2.2.2.2
      ⟨"1", none, some ⟨true, 0⟩, []⟩ ⟨true, 0⟩ [("healthStatus", "0")] _ rfl
      (by decide)).trans (by decide),
   ((health_flag_only_set_explicitly (fun _ _ => .ok "") false).2.2.2.2.2
      ⟨"1", none, some ⟨true, 0⟩, []⟩ ⟨true, 0⟩ [("healthStatus", "yes")] _ rfl
      (by decide)).trans (by decide),
   ((health_flag_only_set_explicitly (fun _ _ => .ok "") false).2.2.2.2.2
      ⟨"1", none, some ⟨false, 0⟩, []⟩ ⟨false, 0⟩
      [("healthStatus", "99999999999999999999x")] _ rfl (by decide)).trans (by decide)⟩

/-- Claim C12: for every log line `handleLogLine` returns without failing on the submatch
index (index 1 exists after a successful match of the join or leave pattern); the player is
non-nil exactly when the action is PLAYERJOIN or PLAYERLEAVE, and then the name is not empty;
so the body of the tail loop never logs "could not determine player" and never panics. -/
theorem handleLogLine_player_iff (line : String) :
    ∃ res, handleLogLine line = some res ∧
      (res.player.isSome = true ↔ (res.action = "PLAYERJOIN" ∨ res.action = "PLAYERLEAVE")) ∧
      (∀ name, res.player = some name → name ≠ "" ∧ 0 < name.length) ∧
      (playerJoin.MatchString line = true →
        ((playerJoin.FindSubmatch line).get? 1).isSome = true) ∧
      (playerLeave.MatchString line = true →
        ((playerLeave.FindSubmatch line).get? 1).isSome = true) ∧
      (∀ track, Output.log "could not determine player" ∉ (tailBody track line).1 ∧
        (tailBody track line).2 ≠ some .panic) := by
  have hname : ∀ name : String, name.data ≠ [] → name ≠ "" ∧ 0 < name.length := by
    intro name hne
    refine ⟨fun h => hne (by rw [h]), ?_⟩
    rw [String.length]
    exact List.length_pos.2 hne
  have hj : playerJoin.MatchString line = true →
      ((playerJoin.FindSubmatch line).get? 1).isSome = true := by
    intro h
    obtain ⟨_, _, _, hg⟩ := Regexp.FindSubmatch_get_one (r := playerJoin) rfl h
    rw [hg]; rfl
  have hl : playerLeave.MatchString line = true →
      ((playerLeave.FindSubmatch line).get? 1).isSome = true := by
    intro h
    obtain ⟨_, _, _, hg⟩ := Regexp.FindSubmatch_get_one (r := playerLeave) rfl h
    rw [hg]; rfl
  rcases handleLogLine_cases line with h | ⟨name, hne, h⟩ | ⟨name, hne, h⟩ | h | h
  · refine ⟨_, h, by decide, by simp, hj, hl, ?_⟩
    intro track
    simp [tailBody, h]
  · refine ⟨_, h, by simp, ?_, hj, hl, ?_⟩
    · intro n hn
      cases hn
      exact hname _ hne
    · intro track
      cases track <;> simp [tailBody, h]
      all_goals exact fun he => player_log_ne _ _ he.symm
  · refine ⟨_, h, by simp, ?_, hj, hl, ?_⟩
    · intro n hn
      cases hn
      exact hname _ hne
    · intro track
      simp [tailBody, h]
      exact fun he => player_log_ne _ _ he.symm
  · refine ⟨_, h, by decide, by simp, hj, hl, ?_⟩
    intro track
    simp [tailBody, h]
  · refine ⟨_, h, by decide, by simp, hj, hl, ?_⟩
    intro track
    simp [tailBody, h]

/-- Witness for claim C12 on the spec's leave line. -/
theorem handleLogLine_player_iff_witness :
    ∃ res, handleLogLine "ServerLobby: Alice disconnected" = some res ∧
      (res.player.isSome = true ↔ (res.action = "PLAYERJOIN" ∨ res.action = "PLAYERLEAVE")) ∧
      (∀ name, res.player = some name → name ≠ "" ∧ 0 < name.length) ∧
      ((playerLeave.FindSubmatch "ServerLobby: Alice disconnected").get? 1).isSome = true := by
  obtain ⟨res, h, hiff, hname, _, hl, _⟩ :=
    handleLogLine_player_iff "ServerLobby: Alice disconnected"
  exact ⟨res, h, hiff, hname, hl (by decide)⟩

/-- Claim C11: in every run of `main` (every agent, environment and initial state) the calls
`main` sends to the agent are none or the single call ProcessReady, which is never sent
twice; it is sent exactly once whenever the callback listener is bound, its port is read and
the game server is started; every call in the trace is ProcessReady, it comes after the
events of the callback listener being bound and the callback server serving, and no other
call comes before or after it; the calls recorded as sent are those of the trace. -/
theorem main_processReady_once_first (agent : Agent) (env : Env) (w : World) :
    (agentCalls (main agent env w).trace = [] ∨
      ∃ clientPort grpcPort, agentCalls (main agent env w).trace
        = [⟨w.manager.pid, .ProcessReady ["/local/game/log/log.txt"] clientPort grpcPort⟩]) ∧
    (∀ addr port, env.listen = .ok addr → listenerPort addr = some (port, false) →
      env.cmdStart = none →
      agentCalls (main agent env w).trace
        = [⟨w.manager.pid, .ProcessReady ["/local/game/log/log.txt"]
            (int32 (20000 + env.randIntn : Nat)) (int32 port)⟩]) ∧
    (∀ pre o post, (main agent env w).trace = pre ++ .agentCall o :: post →
      (∃ addr rest, pre = .grpcListen addr :: .grpcServe :: rest) ∧
      agentCalls pre = [] ∧ agentCalls post = [] ∧
      ∃ clientPort grpcPort,
        o = ⟨w.manager.pid, .ProcessReady ["/local/game/log/log.txt"] clientPort grpcPort⟩) ∧
    (main agent env w).world.sent = w.sent ++ agentCalls (main agent env w).trace := by
  by_cases hstart : ∃ addr port, env.listen = .ok addr ∧
      listenerPort addr = some (port, false) ∧ env.cmdStart = none
  · obtain ⟨addr, port, hl, hp, hc⟩ := hstart
    obtain ⟨A, B, htr, hA, hB, hsent⟩ := main_ready agent env w addr port hl hp hc
    have hA2 : agentCalls (.grpcListen addr :: .grpcServe :: A) = [] := by
      simpa [agentCalls] using hA
    have hcalls : agentCalls (main agent env w).trace
        = [⟨w.manager.pid, .ProcessReady ["/local/game/log/log.txt"]
            (int32 (20000 + env.randIntn : Nat)) (int32 port)⟩] := by
      rw [htr, agentCalls_append, hA2]
      simpa [agentCalls] using hB
    refine ⟨Or.inr ⟨_, _, hcalls⟩, ?_, ?_, by rw [hcalls, hsent]⟩
    · intro addr1 port1 hl1 hp1 _
      rw [hl] at hl1
      cases hl1
      rw [hp] at hp1
      cases hp1
      exact hcalls
    · intro pre o post hsplit
      rw [htr] at hsplit
      obtain ⟨h1, h2, h3⟩ := agentCall_split_unique hA2 hB hsplit
      exact ⟨⟨addr, A, h1⟩, by rw [h1]; exact hA2, by rw [h3]; exact hB, _, _, h2⟩
  · have hno : ∀ addr port, env.listen = .ok addr → listenerPort addr = some (port, false) →
        env.cmdStart = none → False :=
      fun addr port hl hp hc => hstart ⟨addr, port, hl, hp, hc⟩
    obtain ⟨hcalls, hsent⟩ := main_not_ready agent env w hno
    refine ⟨Or.inl hcalls, ?_, ?_, by rw [hcalls, hsent, List.append_nil]⟩
    · intro addr port hl hp hc
      exact absurd (hno addr port hl hp hc) id
    · intro pre o post hsplit
      exact absurd hsplit (agentCalls_nil_no_split hcalls)

/-- Witness for claim C11: a run in which the listener is bound to port 4312, the game server
starts, the agent accepts the report and the log ends with the shutdown line. -/
theorem main_processReady_once_first_witness :
    agentCalls (main (fun _ _ => .ok "")
      ⟨.ok "127.0.0.1:4312", 17, "supertuxkart --server", false, none, .ok "/root",
        fun _ _ => .ok ["Listening has been started", "STKHost: ... There are now 0 peers."]⟩
      ⟨"1", none, none, []⟩).trace
      = [⟨"1", .ProcessReady ["/local/game/log/log.txt"] (int32 (20000 + 17 : Nat))
          (int32 4312)⟩] :=
  (main_processReady_once_first (fun _ _ => .ok "")
    ⟨.ok "127.0.0.1:4312", 17, "supertuxkart --server", false, none, .ok "/root",
      fun _ _ => .ok ["Listening has been started", "STKHost: ... There are now 0 peers."]⟩
    ⟨"1", none, none, []⟩).2.1 "127.0.0.1:4312" 4312 rfl (by decide) rfl

end Wrapper
